import Mathlib

/-!
# cpp-hocon: the query engine of `config` (lib/src/config.cc)

A shallow embedding of `hocon::config`: path descent (`find_or_null`), the
typed getters, the peek-based existence tests, `entry_set` and the
homogeneous list extraction, followed by theorems about them.

Conventions of the embedding.

* A `shared_value` is a `config_value`; a null `shared_ptr` is `none`.
* A C++ call either returns, throws an exception object, or dereferences a
  null pointer.  The last two are the two constructors of `failure`; every
  function that can fail returns `result α = Except failure α`.
* An exception object is a `config_exception`: the class it was thrown as
  (`cls`) and the message it was built with (`what`).
* Origins (provenance) are not modelled: no branch of config.cc reads them.
* The classes `path`, `config_object`, `config_number`, `config_list` and
  `default_transformer` are declared outside config.cc.  `path` is a list of
  keys; `path::new_path`, `path::render` and `default_transformer::transform`
  are parameters (`new_path`, `render`, `transform`) of every function that
  calls them, so the general theorems hold for any parser, renderer and
  transform step.  `path.new_path`, `path.render` and
  `default_transformer.transform` are concrete instances, used where a tree is
  evaluated.
* `std::set` (the result of `entry_set`) is the list of the inserted pairs, in
  insertion order.
* The Object-level operations `config_object::with_fallback` and
  `config_object::with_value` are declared outside config.cc and are modelled
  from the specification; `config::with_fallback` takes the Object-level merge
  as a parameter.
* The environment (`leatherman::util::environment::each`) and the external
  resolver (`resolve_context::resolve`) are parameters.  Object identity
  matters only to `resolve_with`, which is modelled on `shared_config`, a
  Config instance with the address it lives at.
-/

namespace hocon

/-! ## Values -/

/-- The enum resolve_status carried by object nodes. -/
inductive resolve_status where
  | RESOLVED
  | UNRESOLVED
  deriving DecidableEq, Repr

/-- The enum config_value::type. -/
inductive config_value.type where
  | OBJECT
  | LIST
  | NUMBER
  | BOOLEAN
  | CONFIG_NULL
  | STRING
  | UNSPECIFIED
  deriving DecidableEq, Repr

/-- The enum config_string_type. -/
inductive config_string_type where
  | QUOTED
  | UNQUOTED
  deriving DecidableEq, Repr

/-- Modelled from the spec: the value classes (internal/values/*.hpp, not under
src/).  "Null | Boolean(bool) | Number(Int|Long|Double) | String(text,
quoting-kind) | List(ordered seq of Value) | Object(mapping key→Value, ...,
resolve-status attached)".  An object keeps its entries as an association list
in iteration order; a double is idealised as the rational it denotes. -/
inductive config_value where
  | config_null : config_value
  | config_boolean (value : Bool) : config_value
  | config_int (value : Int) : config_value
  | config_long (value : Int) : config_value
  | config_double (value : Rat) : config_value
  | config_string (text : String) (quoting : config_string_type) : config_value
  | config_list (value : List config_value) : config_value
  | simple_config_object (status : resolve_status)
      (value : List (String × config_value)) : config_value

/-- The pointee of a `shared_object`: the constructor arguments of
`simple_config_object(origin, values, status, ignores_fallbacks)` (config.cc
line 386) that the query engine reads. -/
structure config_object where
  status : resolve_status
  value : List (String × config_value)

/-- A path: the ordered key sequence produced by `path::new_path`. -/
abbrev path := List String

/-- The value `config_value::value_type()` reports. -/
def config_value.value_type : config_value → config_value.type
  | .config_null => .CONFIG_NULL
  | .config_boolean _ => .BOOLEAN
  | .config_int _ => .NUMBER
  | .config_long _ => .NUMBER
  | .config_double _ => .NUMBER
  | .config_string _ _ => .STRING
  | .config_list _ => .LIST
  | .simple_config_object _ _ => .OBJECT

/-- The upcast of a `shared_object` to a `shared_value`. -/
def config_object.to_value (o : config_object) : config_value :=
  .simple_config_object o.status o.value

/-- The cast `dynamic_pointer_cast<const config_object>(v)`: `none` is the null
pointer a failed cast yields. -/
def dynamic_pointer_cast_config_object : config_value → Option config_object
  | .simple_config_object status value => some ⟨status, value⟩
  | _ => none

/-- The accessor `config_object::get_resolve_status()`. -/
def config_object.get_resolve_status (self : config_object) : resolve_status :=
  self.status

/-! ## Exceptions -/

/-- The C++ class an exception object is thrown as. `config_exception_pointer`
is the `config_exception*` thrown by `throw new config_exception(...)`. -/
inductive exception_class where
  | config_exception
  | missing_exception
  | null_exception
  | wrong_type_exception
  | bug_or_broken_exception
  | config_exception_pointer
  | runtime_error
  deriving DecidableEq, Repr

/-- The message an exception is built with, one constructor per throw site of
config.cc (and one for `int_value_range_checked`), with the rendered path the
site formats into it. -/
inductive message where
  /-- The message of `missing_exception(path)`, line 146. -/
  | no_configuration_setting (path : String)
  /-- The message of `null_exception(origin, path)`, line 131. -/
  | is_null (path : String)
  /-- "{1} could not be converted to the requested type", line 156. -/
  | could_not_be_converted (path : String)
  /-- "{1} has not been resolved, you need to call config::resolve()", lines 84, 179. -/
  | has_not_been_resolved (path : String)
  /-- "List does not contain only config_objects.", line 269. -/
  | list_not_only_config_objects
  /-- "List does not contain only configs.", line 282. -/
  | list_not_only_configs
  /-- "The list did not contain only the desired type.", line 301. -/
  | list_not_only_desired_type
  /-- "Creating new object from config_object did not return a config_object", line 316. -/
  | did_not_return_config_object
  /-- "Method not implemented", line 362. -/
  | method_not_implemented
  /-- The range failure of `config_number::int_value_range_checked(path)`. -/
  | out_of_range (path : String)
  deriving DecidableEq, Repr

/-- The error kinds of the specification (section 7). -/
inductive error_kind where
  | Missing
  | Null
  | WrongType
  | NumericOverflow
  | NotResolved
  | BugOrBroken
  | NotImplemented
  deriving DecidableEq, Repr

/-- An exception object in flight. -/
structure config_exception where
  cls : exception_class
  what : message
  deriving DecidableEq, Repr

/-- The error kind of a message, following section 7 of the specification
("error kinds (not implementation types)"): the kind is what the message says,
the "list did not contain only ..." messages being WrongType. -/
def message.kind : message → error_kind
  | .no_configuration_setting _ => .Missing
  | .is_null _ => .Null
  | .could_not_be_converted _ => .WrongType
  | .has_not_been_resolved _ => .NotResolved
  | .list_not_only_config_objects => .WrongType
  | .list_not_only_configs => .WrongType
  | .list_not_only_desired_type => .WrongType
  | .did_not_return_config_object => .BugOrBroken
  | .method_not_implemented => .NotImplemented
  | .out_of_range _ => .NumericOverflow

/-- The rendered path a message carries, if it carries one. -/
def message.path : message → Option String
  | .no_configuration_setting p => some p
  | .is_null p => some p
  | .could_not_be_converted p => some p
  | .has_not_been_resolved p => some p
  | .out_of_range p => some p
  | _ => none

/-- The error kind of an exception object: the kind of its message. -/
def config_exception.kind (ex : config_exception) : error_kind :=
  ex.what.kind

/-- The statement `throw ex;` inside `catch (config_exception& ex)`: the thrown
object is copy-initialised from the static type of `ex`, so it is a plain
`config_exception` carrying the same message. -/
def config_exception.rethrown_by_value (ex : config_exception) : config_exception :=
  { ex with cls := .config_exception }

/-- How a call can end without returning. -/
inductive failure where
  /-- An exception object was thrown. -/
  | thrown (ex : config_exception)
  /-- A null pointer was dereferenced (`*desired_path.first()` on an empty
  path, `->` on the result of a failed `dynamic_pointer_cast`). -/
  | null_dereference
  deriving DecidableEq, Repr

/-- The outcome of a call that may fail. -/
abbrev result (α : Type) := Except failure α

/-- The statement `throw cls(what)`. -/
def throw_exception {α : Type} (cls : exception_class) (what : message) : result α :=
  .error (.thrown ⟨cls, what⟩)

/-! ## The collaborators declared outside config.cc -/

/-- Modelled from the spec: path::sub_path(first_index, last_index)
(hocon/path.hpp, not under src/), "a sub-range operation used to reconstruct
the consumed prefix for error messages": the keys from `first_index` up to,
not including, `last_index`. -/
def path.sub_path (p : path) (first_index last_index : Nat) : path :=
  (p.drop first_index).take (last_index - first_index)

/-- Modelled from the spec: path::new_key(key) (hocon/path.hpp, not under
src/): the one-segment path. -/
def path.new_key (key : String) : path := [key]

/-- Modelled from the spec: path::prepend(to_prepend) (hocon/path.hpp, not under
src/): the keys of `to_prepend` followed by those of the receiver. -/
def path.prepend (p to_prepend : path) : path := to_prepend ++ p

/-- Modelled from the spec: config_object::peek_assuming_resolved(key,
original_path) (not under src/), "a direct key lookup at the current object":
the value bound to `key`, or the null pointer when the key is absent. -/
def config_object.peek_assuming_resolved (self : config_object) (key : String)
    (_original_path : path) : Option config_value :=
  self.value.lookup key

/-- Modelled from the spec: config_object::peek_path(path) (not under src/),
the "peek" of `has_path`: it follows the keys through nested Objects and
yields the value at the end, or the null pointer when a key is absent or a
value on the way is not an Object.  It throws nothing. -/
def config_object.peek_path (self : config_object) : path → result (Option config_value)
  | [] => .error .null_dereference
  | [key] => .ok (self.value.lookup key)
  | key :: next =>
    match self.value.lookup key with
    | none => .ok none
    | some v =>
      match dynamic_pointer_cast_config_object v with
      | some object => config_object.peek_path object next
      | none => .ok none

/-- Modelled from the spec: config_object::entry_set() (not under src/): the
(key, value) entries of the object, in iteration order. -/
def config_object.entry_set (self : config_object) : List (String × config_value) :=
  self.value

/-- Modelled from the spec: default_transformer::transform(value, requested)
(internal/default_transformer.hpp, not under src/), "the external
value-transform step (e.g. numeric-to-string coercions)": a Number requested
as a String becomes the quoted String of its text; every other value is
returned as it is. -/
def default_transformer.transform (value : config_value)
    (requested : config_value.type) : config_value :=
  match requested, value with
  | .STRING, .config_int n => .config_string (toString n) .QUOTED
  | .STRING, .config_long n => .config_string (toString n) .QUOTED
  | .STRING, .config_double d => .config_string (toString d) .QUOTED
  | _, v => v

/-- Modelled from the spec: path::render() (hocon/path.hpp, not under src/) on
keys that need no quoting: the keys joined by dots, the "fully-rendered dotted
path". -/
def path.render (p : path) : String :=
  ".".intercalate p

/-- One step of `path.new_path`: `current` holds the characters of the key
being read, in reverse. -/
def path.new_path_chars (current : List Char) : List Char → List String
  | [] => [String.mk current.reverse]
  | c :: rest =>
    if c = '.' then String.mk current.reverse :: path.new_path_chars [] rest
    else path.new_path_chars (c :: current) rest

/-- Modelled from the spec: path::new_path(expression) (hocon/path.hpp, not
under src/) on expressions without quoting: a "dotted string, each segment a
key". -/
def path.new_path (path_expression : String) : path :=
  path.new_path_chars [] path_expression.data

/-- Modelled from the spec: the variant `unwrapped_value` (hocon/types.hpp, not
under src/), the "primitive-equivalent representation" of a value: blank,
string, int, int64_t, double, bool, vector or map. -/
inductive unwrapped_value where
  | blank : unwrapped_value
  | string (s : String) : unwrapped_value
  | int (n : Int) : unwrapped_value
  | int64 (n : Int) : unwrapped_value
  | double (d : Rat) : unwrapped_value
  | bool (b : Bool) : unwrapped_value
  | vector (items : List unwrapped_value) : unwrapped_value
  | map (entries : List (String × unwrapped_value)) : unwrapped_value

mutual
/-- Modelled from the spec: config_value::unwrapped() (not under src/): each
value unwraps to the alternative of its own class, a List to the vector of its
unwrapped elements, an Object to the map of its unwrapped entries. -/
def config_value.unwrapped : config_value → unwrapped_value
  | .config_null => .blank
  | .config_boolean b => .bool b
  | .config_int n => .int n
  | .config_long n => .int64 n
  | .config_double d => .double d
  | .config_string s _ => .string s
  | .config_list items => .vector (config_value.unwrapped_items items)
  | .simple_config_object _ entries => .map (config_value.unwrapped_entries entries)
/-- The unwrapped elements of a List, in list order. -/
def config_value.unwrapped_items : List config_value → List unwrapped_value
  | [] => []
  | v :: rest => config_value.unwrapped v :: config_value.unwrapped_items rest
/-- The unwrapped entries of an Object. -/
def config_value.unwrapped_entries :
    List (String × config_value) → List (String × unwrapped_value)
  | [] => []
  | (k, v) :: rest => (k, config_value.unwrapped v) :: config_value.unwrapped_entries rest
end

/-- The call `boost::get<int64_t>(item)`: `none` stands for `boost::bad_get`. -/
def boost_get_int64 : unwrapped_value → Option Int
  | .int64 n => some n
  | _ => none

/-- The call `boost::get<int>(item)`: `none` stands for `boost::bad_get`. -/
def boost_get_int : unwrapped_value → Option Int
  | .int n => some n
  | _ => none

/-- Modelled from the spec: config_number::long_value() (not under src/),
"`get_long` accepts the number kind without narrowing further": the integer a
Number holds, a double being truncated toward zero.  `none` on a value that is
not a Number. -/
def config_value.long_value : config_value → Option Int
  | .config_int n => some n
  | .config_long n => some n
  | .config_double d => some (if 0 ≤ d then d.floor else -((-d).floor))
  | _ => none

/-- Modelled from the spec: config_number::double_value() (not under src/).
`none` on a value that is not a Number. -/
def config_value.double_value : config_value → Option Rat
  | .config_int n => some n
  | .config_long n => some n
  | .config_double d => some d
  | _ => none

/-- Modelled from the spec: config_number::int_value_range_checked(path) (not
under src/), "range-checks that the underlying number fits a 32-bit signed
range, failing with NumericOverflow (carrying the path) if not". -/
def int_value_range_checked (l : Int) (path_expression : String) : result Int :=
  if -2147483648 ≤ l ∧ l ≤ 2147483647 then .ok l
  else throw_exception .config_exception (.out_of_range path_expression)

/-! ## config.cc -/

/-- The class `config`: a handle on one root object (`_object`). -/
structure config where
  _object : config_object

/-- The accessor `config::root()`, lines 45-47. -/
def config.root (c : config) : config_object := c._object

/-- The method `config::is_resolved()`, lines 329-331. -/
def config.is_resolved (c : config) : Bool :=
  decide (c.root.get_resolve_status = .RESOLVED)

/-- The clause `catch (config_exception& ex)` of lines 80-85 and of lines
175-180, applied to the outcome `attempt` of the `try` block: an exception is
thrown again by value when `self` is RESOLVED and is replaced by the "has not
been resolved" `config_exception` on the path `desired_path` otherwise; a
returned value passes through. -/
def config.catch_config_exception {α : Type} (render : path → String)
    (self : config_object) (desired_path : path) (attempt : result α) : result α :=
  match attempt with
  | .error (.thrown ex) =>
    if self.get_resolve_status = .RESOLVED then
      .error (.thrown ex.rethrown_by_value)
    else
      throw_exception .config_exception (.has_not_been_resolved (render desired_path))
  | returned => returned

/-- The method `config::has_path_peek`, lines 75-87. -/
def config.has_path_peek (render : path → String) (new_path : String → path)
    (c : config) (path_expression : String) : result (Option config_value) :=
  let raw_path := new_path path_expression
  config.catch_config_exception render c._object raw_path (c._object.peek_path raw_path)

/-- The method `config::has_path`, lines 89-92. -/
def config.has_path (render : path → String) (new_path : String → path)
    (c : config) (path_expression : String) : result Bool :=
  match c.has_path_peek render new_path path_expression with
  | .error f => .error f
  | .ok none => .ok false
  | .ok (some peeked) => .ok (decide (peeked.value_type ≠ .CONFIG_NULL))

/-- The method `config::has_path_or_null`, lines 94-97. -/
def config.has_path_or_null (render : path → String) (new_path : String → path)
    (c : config) (path_expression : String) : result Bool :=
  match c.has_path_peek render new_path path_expression with
  | .error f => .error f
  | .ok peeked => .ok peeked.isSome

mutual
/-- The loop of `config::find_paths`, lines 105-119, over the entries of `obj`
still to visit.  `entries` is the set being filled: the pairs inserted so far,
in insertion order. -/
def config.find_paths_loop (render : path → String) :
    path → List (String × config_value) → List (String × config_value) →
    List (String × config_value)
  | _, [], entries => entries
  | parent, (elem, v) :: rest, entries =>
    config.find_paths_loop render parent rest
      (config.find_paths_entry render
        (if parent.isEmpty then path.new_key elem else (path.new_key elem).prepend parent)
        v entries)
/-- The body of the loop of `config::find_paths`, lines 112-118, for the value
`v` of one entry, `new_path` being the path of that entry: an Object is
descended into, a Null is skipped, any other value is inserted. -/
def config.find_paths_entry (render : path → String) :
    path → config_value → List (String × config_value) → List (String × config_value)
  | new_path, .simple_config_object _ object, entries =>
    config.find_paths_loop render new_path object entries
  | _, .config_null, entries => entries
  | new_path, .config_boolean b, entries => entries ++ [(render new_path, .config_boolean b)]
  | new_path, .config_int n, entries => entries ++ [(render new_path, .config_int n)]
  | new_path, .config_long n, entries => entries ++ [(render new_path, .config_long n)]
  | new_path, .config_double d, entries => entries ++ [(render new_path, .config_double d)]
  | new_path, .config_string s q, entries =>
    entries ++ [(render new_path, .config_string s q)]
  | new_path, .config_list items, entries =>
    entries ++ [(render new_path, .config_list items)]
end

/-- The static method `config::find_paths(entries, parent, obj)`, lines 103-120. -/
def config.find_paths (render : path → String) (entries : List (String × config_value))
    (parent : path) (obj : config_object) : List (String × config_value) :=
  config.find_paths_loop render parent obj.entry_set entries

/-- The method `config::entry_set()`, lines 122-126. -/
def config.entry_set (render : path → String) (c : config) :
    List (String × config_value) :=
  config.find_paths render [] [] c._object

/-- The static method `config::throw_if_null`, lines 128-135. -/
def config.throw_if_null (render : path → String) (v : config_value)
    (_expected : config_value.type) (original_path : path) : result config_value :=
  if v.value_type = .CONFIG_NULL then
    throw_exception .null_exception (.is_null (render original_path))
  else
    .ok v

/-- The static method `config::find_key_or_null`, lines 142-160. -/
def config.find_key_or_null (transform : config_value → config_value.type → config_value)
    (render : path → String) (self : config_object) (key : String)
    (expected : config_value.type) (original_path : path) : result config_value :=
  match self.peek_assuming_resolved key original_path with
  | none => throw_exception .missing_exception (.no_configuration_setting (render original_path))
  | some v =>
    let v := if expected ≠ .UNSPECIFIED then transform v expected else v
    if expected ≠ .UNSPECIFIED ∧ v.value_type ≠ expected ∧
        v.value_type ≠ .CONFIG_NULL then
      throw_exception .wrong_type_exception (.could_not_be_converted (render original_path))
    else
      .ok v

/-- The static method `config::find_key`, lines 137-140. -/
def config.find_key (transform : config_value → config_value.type → config_value)
    (render : path → String) (self : config_object) (key : String)
    (expected : config_value.type) (original_path : path) : result config_value :=
  match config.find_key_or_null transform render self key expected original_path with
  | .error f => .error f
  | .ok v => config.throw_if_null render v expected original_path

/-- The static method `config::find_or_null(self, desired_path, expected,
original_path)`, lines 162-181.  `key :: next` is `desired_path.first()` and
`desired_path.remainder()`; on an empty path `*desired_path.first()`
dereferences a null pointer. -/
def config.find_or_null_static (transform : config_value → config_value.type → config_value)
    (render : path → String) :
    config_object → path → config_value.type → path → result config_value
  | _, [], _, _ => .error .null_dereference
  | self, key :: next, expected, original_path =>
    config.catch_config_exception render self (key :: next)
      (if next.isEmpty then
        config.find_key_or_null transform render self key expected original_path
      else
        match config.find_key transform render self key .OBJECT
            (original_path.sub_path 0 (original_path.length - next.length)) with
        | .error f => .error f
        | .ok v =>
          match dynamic_pointer_cast_config_object v with
          | none => .error .null_dereference
          | some o => config.find_or_null_static transform render o next expected original_path)

/-- The method `config::find_or_null(path, expected, original_path)`, lines 369-372. -/
def config.find_or_null_path (transform : config_value → config_value.type → config_value)
    (render : path → String) (c : config) (path_expression : path)
    (expected : config_value.type) (original_path : path) : result config_value :=
  config.find_or_null_static transform render c._object path_expression expected original_path

/-- The method `config::find_or_null(path_expression, expected)`, lines 183-186. -/
def config.find_or_null (transform : config_value → config_value.type → config_value)
    (render : path → String) (new_path : String → path) (c : config)
    (path_expression : String) (expected : config_value.type) : result config_value :=
  let raw_path := new_path path_expression
  c.find_or_null_path transform render raw_path expected raw_path

/-- The method `config::find(path, expected, original_path)`, lines 374-376. -/
def config.find_path (transform : config_value → config_value.type → config_value)
    (render : path → String) (c : config) (path_expression : path)
    (expected : config_value.type) (original_path : path) : result config_value :=
  match config.find_or_null_static transform render c._object path_expression expected
      original_path with
  | .error f => .error f
  | .ok v => config.throw_if_null render v expected original_path

/-- The method `config::find(path_expression, expected)`, lines 188-191. -/
def config.find (transform : config_value → config_value.type → config_value)
    (render : path → String) (new_path : String → path) (c : config)
    (path_expression : String) (expected : config_value.type) : result config_value :=
  let raw_path := new_path path_expression
  c.find_path transform render raw_path expected raw_path

/-- The method `config::get_is_null`, lines 193-196. -/
def config.get_is_null (transform : config_value → config_value.type → config_value)
    (render : path → String) (new_path : String → path) (c : config)
    (path_expression : String) : result Bool :=
  match c.find_or_null transform render new_path path_expression .UNSPECIFIED with
  | .error f => .error f
  | .ok v => .ok (decide (v.value_type = .CONFIG_NULL))

/-- The method `config::get_value`, lines 198-200. -/
def config.get_value (transform : config_value → config_value.type → config_value)
    (render : path → String) (new_path : String → path) (c : config)
    (path_expression : String) : result config_value :=
  c.find transform render new_path path_expression .UNSPECIFIED

/-- The method `config::get_bool`, lines 202-205: the cast to `config_boolean`
yields a null pointer on any other class, and `->bool_value()` dereferences it. -/
def config.get_bool (transform : config_value → config_value.type → config_value)
    (render : path → String) (new_path : String → path) (c : config)
    (path_expression : String) : result Bool :=
  match c.find transform render new_path path_expression .BOOLEAN with
  | .error f => .error f
  | .ok (.config_boolean b) => .ok b
  | .ok _ => .error .null_dereference

/-- The method `config::get_int`, lines 207-210. -/
def config.get_int (transform : config_value → config_value.type → config_value)
    (render : path → String) (new_path : String → path) (c : config)
    (path_expression : String) : result Int :=
  match c.find transform render new_path path_expression .NUMBER with
  | .error f => .error f
  | .ok v =>
    match v.long_value with
    | some l => int_value_range_checked l path_expression
    | none => .error .null_dereference

/-- The method `config::get_long`, lines 212-215. -/
def config.get_long (transform : config_value → config_value.type → config_value)
    (render : path → String) (new_path : String → path) (c : config)
    (path_expression : String) : result Int :=
  match c.find transform render new_path path_expression .NUMBER with
  | .error f => .error f
  | .ok v =>
    match v.long_value with
    | some l => .ok l
    | none => .error .null_dereference

/-- The method `config::get_double`, lines 217-220. -/
def config.get_double (transform : config_value → config_value.type → config_value)
    (render : path → String) (new_path : String → path) (c : config)
    (path_expression : String) : result Rat :=
  match c.find transform render new_path path_expression .NUMBER with
  | .error f => .error f
  | .ok v =>
    match v.double_value with
    | some d => .ok d
    | none => .error .null_dereference

/-- The method `config::get_string`, lines 222-225: `transform_to_string()` of a
`config_string` is its text. -/
def config.get_string (transform : config_value → config_value.type → config_value)
    (render : path → String) (new_path : String → path) (c : config)
    (path_expression : String) : result String :=
  match c.find transform render new_path path_expression .STRING with
  | .error f => .error f
  | .ok (.config_string text _) => .ok text
  | .ok _ => .error .null_dereference

/-- The method `config::get_object`, lines 227-229: it returns the pointer the
cast yields, `none` being the null pointer. -/
def config.get_object (transform : config_value → config_value.type → config_value)
    (render : path → String) (new_path : String → path) (c : config)
    (path_expression : String) : result (Option config_object) :=
  match c.find transform render new_path path_expression .OBJECT with
  | .error f => .error f
  | .ok v => .ok (dynamic_pointer_cast_config_object v)

/-- The cast `dynamic_pointer_cast<const config_list>(v)`: the elements of the
list, `none` being the null pointer. -/
def dynamic_pointer_cast_config_list : config_value → Option (List config_value)
  | .config_list items => some items
  | _ => none

/-- The method `config::get_list`, lines 239-241: it returns the pointer the
cast yields, `none` being the null pointer. -/
def config.get_list (transform : config_value → config_value.type → config_value)
    (render : path → String) (new_path : String → path) (c : config)
    (path_expression : String) : result (Option (List config_value)) :=
  match c.find transform render new_path path_expression .LIST with
  | .error f => .error f
  | .ok v => .ok (dynamic_pointer_cast_config_list v)

/-- The loop of `get_homogeneous_unwrapped_list<int64_t>`, lines 293-304, over
the items still to visit; `long_list` is the vector filled so far. -/
def config.get_long_list_loop : List unwrapped_value → List Int → result (List Int)
  | [], long_list => .ok long_list
  | item :: rest, long_list =>
    match boost_get_int64 item with
    | some n => config.get_long_list_loop rest (long_list ++ [n])
    | none =>
      match boost_get_int item with
      | some n => config.get_long_list_loop rest (long_list ++ [n])
      | none => throw_exception .config_exception .list_not_only_desired_type

/-- The specialisation `config::get_homogeneous_unwrapped_list<int64_t>`, lines
289-306.  `get_list(path)->unwrapped()` is the vector of the unwrapped elements
of the list, which `boost::get<std::vector<unwrapped_value>>` hands over. -/
def config.get_homogeneous_unwrapped_list_int64
    (transform : config_value → config_value.type → config_value)
    (render : path → String) (new_path : String → path) (c : config)
    (path_expression : String) : result (List Int) :=
  match c.get_list transform render new_path path_expression with
  | .error f => .error f
  | .ok none => .error .null_dereference
  | .ok (some items) => config.get_long_list_loop (config_value.unwrapped_items items) []

/-- The method `config::get_long_list`, lines 251-253. -/
def config.get_long_list (transform : config_value → config_value.type → config_value)
    (render : path → String) (new_path : String → path) (c : config)
    (path_expression : String) : result (List Int) :=
  c.get_homogeneous_unwrapped_list_int64 transform render new_path path_expression

/-! ## Assumptions on the collaborators -/

/-- The transform step performs no coercion when an Object is requested. -/
def no_object_coercion (transform : config_value → config_value.type → config_value) : Prop :=
  ∀ v, transform v .OBJECT = v

/-- The transform step returns a List unchanged when a List is requested. -/
def keeps_lists (transform : config_value → config_value.type → config_value) : Prop :=
  ∀ items, transform (.config_list items) .LIST = .config_list items

mutual
/-- A resolved tree: every Object in it has resolve-status RESOLVED. -/
def config_value.resolved : config_value → Bool
  | .simple_config_object status entries =>
    decide (status = .RESOLVED) && config_value.resolved_entries entries
  | .config_list items => config_value.resolved_items items
  | _ => true
/-- Every value of the entries is a resolved tree. -/
def config_value.resolved_entries : List (String × config_value) → Bool
  | [] => true
  | (_, v) :: rest => config_value.resolved v && config_value.resolved_entries rest
/-- Every item is a resolved tree. -/
def config_value.resolved_items : List config_value → Bool
  | [] => true
  | v :: rest => config_value.resolved v && config_value.resolved_items rest
end

/-- The Object reached from `self` by following the keys of a path through
nested Objects (`self` itself on the empty path); `none` when a key is absent
or bound to a value that is not an Object. -/
def config_object.descend : config_object → path → Option config_object
  | self, [] => some self
  | self, key :: rest =>
    match self.value.lookup key with
    | none => none
    | some v =>
      match dynamic_pointer_cast_config_object v with
      | none => none
      | some o => config_object.descend o rest

/-- The outcome of the kind check of `find_key_or_null` (lines 149-159) on a
bound value `v`: `t` is returned when no kind is expected and `t` is `v`, or
when `t` is the transform of `v` and its kind is the expected one or Null. -/
def accepted (transform : config_value → config_value.type → config_value)
    (expected : config_value.type) (v t : config_value) : Prop :=
  (expected = .UNSPECIFIED ∧ t = v) ∨
  (expected ≠ .UNSPECIFIED ∧ t = transform v expected ∧
    (t.value_type = expected ∨ t.value_type = .CONFIG_NULL))

/-- Every typed getter (get_value, get_bool, get_int, get_long, get_double,
get_string, get_object, get_list) called with `path_expression` fails with `f`. -/
def config.every_getter_fails_with
    (transform : config_value → config_value.type → config_value)
    (render : path → String) (new_path : String → path) (c : config)
    (path_expression : String) (f : failure) : Prop :=
  c.get_value transform render new_path path_expression = .error f ∧
  c.get_bool transform render new_path path_expression = .error f ∧
  c.get_int transform render new_path path_expression = .error f ∧
  c.get_long transform render new_path path_expression = .error f ∧
  c.get_double transform render new_path path_expression = .error f ∧
  c.get_string transform render new_path path_expression = .error f ∧
  c.get_object transform render new_path path_expression = .error f ∧
  c.get_list transform render new_path path_expression = .error f

/-- Scenario 1 of the specification: the fully resolved tree
`{a: {b: {c: 1}}, x: null, list: [1, 2, 3]}`. -/
def scenario_tree : config :=
  ⟨⟨.RESOLVED,
    [("a", .simple_config_object .RESOLVED
        [("b", .simple_config_object .RESOLVED [("c", .config_int 1)])]),
     ("x", .config_null),
     ("list", .config_list [.config_int 1, .config_int 2, .config_int 3])]⟩⟩

/-- Scenario 3 of the specification: the fully resolved tree `{a: {b: 5}}`. -/
def scenario_tree_a_b_5 : config :=
  ⟨⟨.RESOLVED, [("a", .simple_config_object .RESOLVED [("b", .config_int 5)])]⟩⟩

/-- The tree `{x: null}`, its root marked UNRESOLVED. -/
def unresolved_tree_x_null : config :=
  ⟨⟨.UNRESOLVED, [("x", .config_null)]⟩⟩

/-- The tree `{a: 1}`, its root marked UNRESOLVED. -/
def unresolved_tree_a_1 : config :=
  ⟨⟨.UNRESOLVED, [("a", .config_int 1)]⟩⟩

/-- The descent of a getter that expects `expected` succeeds on the path `p`:
the peek locates a value there and the kind check accepts it. -/
def config.descent_succeeds (transform : config_value → config_value.type → config_value)
    (c : config) (p : path) (expected : config_value.type) : Prop :=
  ∃ v t, c.root.peek_path p = .ok (some v) ∧ accepted transform expected v t

/-- The failures a typed getter can end in on a tree whose root is not
RESOLVED: an exception of kind NotResolved, Null or NumericOverflow. -/
def unresolved_failure (f : failure) : Prop :=
  ∃ ex, f = .thrown ex ∧
    (ex.kind = .NotResolved ∨ ex.kind = .Null ∨ ex.kind = .NumericOverflow)

/-- Every failure of a typed getter (get_value, get_bool, get_int, get_long,
get_double, get_string, get_object, get_list) called with `path_expression`
satisfies `P`. -/
def config.every_getter_failure
    (transform : config_value → config_value.type → config_value)
    (render : path → String) (new_path : String → path) (c : config)
    (path_expression : String) (P : failure → Prop) : Prop :=
  (∀ f, c.get_value transform render new_path path_expression = .error f → P f) ∧
  (∀ f, c.get_bool transform render new_path path_expression = .error f → P f) ∧
  (∀ f, c.get_int transform render new_path path_expression = .error f → P f) ∧
  (∀ f, c.get_long transform render new_path path_expression = .error f → P f) ∧
  (∀ f, c.get_double transform render new_path path_expression = .error f → P f) ∧
  (∀ f, c.get_string transform render new_path path_expression = .error f → P f) ∧
  (∀ f, c.get_object transform render new_path path_expression = .error f → P f) ∧
  (∀ f, c.get_list transform render new_path path_expression = .error f → P f)

/-- The value `x` is an integer leaf, stored as a 32-bit int or as a 64-bit
integer, that holds `n`. -/
def holds_integer (x : config_value) (n : Int) : Prop :=
  x = .config_int n ∨ x = .config_long n

/-- The resolved tree `{list: [1, 5000000000, -3]}`: its second element is
stored as a 64-bit integer, the others as 32-bit ints. -/
def long_list_tree : config :=
  ⟨⟨.RESOLVED,
    [("list", .config_list [.config_int 1, .config_long 5000000000, .config_int (-3)])]⟩⟩

mutual
/-- The keys of every Object reached from the value through Objects are
unique, as the data model requires of an Object ("mapping key→Value, keys
unique"). -/
def config_value.unique_keys : config_value → Bool
  | .simple_config_object _ entries => config_value.unique_keys_entries entries
  | _ => true
/-- No key of the entries occurs twice, and the value of every entry has
unique keys. -/
def config_value.unique_keys_entries : List (String × config_value) → Bool
  | [] => true
  | (key, v) :: rest =>
    (rest.lookup key).isNone && config_value.unique_keys v &&
      config_value.unique_keys_entries rest
end

mutual
/-- The leaves below the entries of an Object at path `parent`: each value that
is neither an Object nor Null, reached through Objects only, with the key
sequence that leads to it from the root. -/
def leaves_loop : path → List (String × config_value) → List (path × config_value)
  | _, [] => []
  | parent, (key, v) :: rest => leaves_entry (parent ++ [key]) v ++ leaves_loop parent rest
/-- The leaves at or below the value `v` found at path `p`. -/
def leaves_entry : path → config_value → List (path × config_value)
  | p, .simple_config_object _ entries => leaves_loop p entries
  | _, .config_null => []
  | p, .config_boolean b => [(p, .config_boolean b)]
  | p, .config_int n => [(p, .config_int n)]
  | p, .config_long n => [(p, .config_long n)]
  | p, .config_double d => [(p, .config_double d)]
  | p, .config_string s q => [(p, .config_string s q)]
  | p, .config_list items => [(p, .config_list items)]
end

/-- The peek below a value `w` bound to a key: `w` itself on the empty path,
the peek in `w` when `w` is an Object, the null pointer otherwise. -/
def config_value.peek_below (w : config_value) : path → result (Option config_value)
  | [] => .ok (some w)
  | key :: next =>
    match dynamic_pointer_cast_config_object w with
    | some object => object.peek_path (key :: next)
    | none => .ok none

/-- A leaf of the flattened entry set: a value that is neither an Object nor
Null. -/
def config_value.is_leaf (v : config_value) : Prop :=
  v.value_type ≠ .OBJECT ∧ v.value_type ≠ .CONFIG_NULL

/-! ## List getters of objects, merge, update, environment, resolution -/

/-- The loop of `config::get_object_list`, lines 266-272, over the items still
to visit; `object_list` is the vector filled so far.  On an item that is not an
Object, `throw new config_exception(...)` throws a pointer to an exception
object. -/
def config.get_object_list_loop :
    List config_value → List config_object → result (List config_object)
  | [], object_list => .ok object_list
  | item :: rest, object_list =>
    match dynamic_pointer_cast_config_object item with
    | none => throw_exception .config_exception_pointer .list_not_only_config_objects
    | some obj => config.get_object_list_loop rest (object_list ++ [obj])

/-- The method `config::get_object_list`, lines 263-274. -/
def config.get_object_list (transform : config_value → config_value.type → config_value)
    (render : path → String) (new_path : String → path) (c : config)
    (path_expression : String) : result (List config_object) :=
  match c.get_list transform render new_path path_expression with
  | .error f => .error f
  | .ok none => .error .null_dereference
  | .ok (some items) => config.get_object_list_loop items []

/-- The cast `dynamic_pointer_cast<const config>(item)` of line 280 on an item
of a list.  The class `config` is not one of the value classes: an Object
becomes a `config` only through `to_config()` (lines 26, 35, 236, 314), so the
cast of a value yields the null pointer. -/
def dynamic_pointer_cast_config (_item : config_value) : Option config :=
  none

/-- The loop of `config::get_config_list`, lines 279-285, over the items still
to visit; `object_list` is the vector filled so far. -/
def config.get_config_list_loop : List config_value → List config → result (List config)
  | [], object_list => .ok object_list
  | item :: rest, object_list =>
    match dynamic_pointer_cast_config item with
    | none => throw_exception .config_exception .list_not_only_configs
    | some obj => config.get_config_list_loop rest (object_list ++ [obj])

/-- The method `config::get_config_list`, lines 276-287. -/
def config.get_config_list (transform : config_value → config_value.type → config_value)
    (render : path → String) (new_path : String → path) (c : config)
    (path_expression : String) : result (List config) :=
  match c.get_list transform render new_path path_expression with
  | .error f => .error f
  | .ok none => .error .null_dereference
  | .ok (some items) => config.get_config_list_loop items []

/-- Modelled from the spec: config_object::to_config() (not under src/): the
Config that wraps the Object. -/
def config_object.to_config (o : config_object) : config := ⟨o⟩

/-- The method `config::get_config`, lines 235-237. -/
def config.get_config (transform : config_value → config_value.type → config_value)
    (render : path → String) (new_path : String → path) (c : config)
    (path_expression : String) : result config :=
  match c.get_object transform render new_path path_expression with
  | .error f => .error f
  | .ok none => .error .null_dereference
  | .ok (some o) => .ok o.to_config

/-- The method `config::to_fallback_value()`, lines 308-310. -/
def config.to_fallback_value (c : config) : config_value := c._object.to_value

/-- A `config_mergeable`, the argument of `with_fallback`: a Config or a value. -/
inductive config_mergeable where
  | of_config (c : config)
  | of_value (v : config_value)

/-- The virtual method `config_mergeable::to_fallback_value()`. -/
def config_mergeable.to_fallback_value : config_mergeable → config_value
  | .of_config c => c.to_fallback_value
  | .of_value v => v

mutual
/-- Modelled from the spec: the Object-level merge (config_object::with_fallback,
not under src/) on the entries of the receiver, `fallback` being the entries of
the other Object: every entry of the receiver is kept under its key, its value
merged with the value the fallback binds to that key. -/
def merge_entries : List (String × config_value) → List (String × config_value) →
    List (String × config_value)
  | [], _ => []
  | (key, v) :: rest, fallback =>
    (key, merge_value v (fallback.lookup key)) :: merge_entries rest fallback
/-- Modelled from the spec: the merge of a value of the receiver with the value
the fallback has at the same place, if any; "for any path present and non-null
in the current tree, that value wins; otherwise the corresponding value from
`other` is used if present".  Two Objects are merged entry by entry, the keys
only the fallback has being appended; the merged Object is RESOLVED only if
both are. -/
def merge_value : config_value → Option config_value → config_value
  | .simple_config_object status entries, fallback =>
    match fallback with
    | some (.simple_config_object status2 entries2) =>
      .simple_config_object
        (if status = .RESOLVED ∧ status2 = .RESOLVED then .RESOLVED else .UNRESOLVED)
        (merge_entries entries entries2 ++
          entries2.filter (fun kv => (entries.lookup kv.1).isNone))
    | _ => .simple_config_object status entries
  | .config_null, fallback =>
    match fallback with
    | some w => w
    | none => .config_null
  | .config_boolean b, _ => .config_boolean b
  | .config_int n, _ => .config_int n
  | .config_long n, _ => .config_long n
  | .config_double d, _ => .config_double d
  | .config_string s q, _ => .config_string s q
  | .config_list items, _ => .config_list items
end

/-- Modelled from the spec: config_object::with_fallback(other) (not under
src/), the "Object-level merge operation" of section 4.3: the merge of the
Object with the fallback value of `other`. -/
def config_object.with_fallback (self : config_object) (other : config_mergeable) :
    config_value :=
  merge_value self.to_value (some other.to_fallback_value)

/-- The method `config::with_fallback`, lines 312-318; `object_with_fallback` is
the Object-level merge `_object->with_fallback(other)`. -/
def config.with_fallback
    (object_with_fallback : config_object → config_mergeable → config_value)
    (c : config) (other : config_mergeable) : result config :=
  match dynamic_pointer_cast_config_object (object_with_fallback c._object other) with
  | some newobj => .ok newobj.to_config
  | none => throw_exception .bug_or_broken_exception .did_not_return_config_object

/-- The entries with `key` bound to `v`: the binding of `key` is overwritten if
there is one and added at the end otherwise. -/
def set_entry (key : String) (v : config_value) :
    List (String × config_value) → List (String × config_value)
  | [] => [(key, v)]
  | (k, w) :: rest => if k = key then (key, v) :: rest else (k, w) :: set_entry key v rest

/-- Modelled from the spec: config_object::with_value(path, value) (not under
src/), "a new Config whose root has the given path inserted/overwritten": the
last key is bound to the value; a key before it is bound to the Object it
already holds, or to an empty Object, with the rest of the path set in it. -/
def config_object.with_value : config_object → path → config_value → config_object
  | self, [], _ => self
  | self, [key], v => ⟨self.status, set_entry key v self.value⟩
  | self, key :: next, v =>
    ⟨self.status,
      set_entry key
        (config_object.with_value
          (match (self.value.lookup key).bind dynamic_pointer_cast_config_object with
            | some o => o
            | none => ⟨.RESOLVED, []⟩)
          next v).to_value
        self.value⟩

/-- The method `config::with_value`, lines 324-327. -/
def config.with_value (new_path : String → path) (c : config) (path_expression : String)
    (value : config_value) : config :=
  ⟨c.root.with_value (new_path path_expression) value⟩

/-- The call `values.emplace(k, v)` on the `unordered_map` of line 379: the
binding is added unless the key is already bound. -/
def emplace (k : String) (v : config_value) (values : List (String × config_value)) :
    List (String × config_value) :=
  if (values.lookup k).isSome then values else values ++ [(k, v)]

/-- The static method `config::env_variables_as_config_object()`, lines 378-387;
`environment` is the sequence of (name, value) pairs that
`leatherman::util::environment::each` passes to the callback. -/
def config.env_variables_as_config_object (environment : List (String × String)) :
    config_object :=
  ⟨.RESOLVED,
    environment.foldl (fun values kv => emplace kv.1 (.config_string kv.2 .QUOTED) values) []⟩

/-- A `shared_ptr`: null, or the address it holds together with the object at
that address. -/
inductive shared_ptr (α : Type) where
  | null : shared_ptr α
  | points_to (address : Nat) (pointee : α) : shared_ptr α

/-- The comparison `p == q` of two `shared_ptr`: they hold the same address. -/
def shared_ptr.same {α β : Type} : shared_ptr α → shared_ptr β → Bool
  | .null, .null => true
  | .points_to a _, .points_to b _ => a == b
  | _, _ => false

/-- The cast `dynamic_pointer_cast<const config_object>(p)` on a pointer: the
same address when the pointee is an Object, the null pointer otherwise. -/
def shared_ptr.dynamic_pointer_cast_config_object :
    shared_ptr config_value → shared_ptr config_object
  | .null => .null
  | .points_to a v =>
    match hocon.dynamic_pointer_cast_config_object v with
    | some o => .points_to a o
    | none => .null

/-- The class `config_resolve_options` with the option the specification
names. -/
structure config_resolve_options where
  allow_unresolved : Bool

/-- A non-null `shared_config` where object identity matters: the address of
the `config` instance and its member `_object`. -/
structure shared_config where
  address : Nat
  _object : shared_ptr config_object

/-- The method `config::resolve_with(source, options)`, lines 65-73, on the
instance `self`.  `resolve_context_resolve` is the external resolver
`resolve_context::resolve`; `make_shared_address` is the address at which
`make_shared<config>` places the new instance. -/
def shared_config.resolve_with
    (resolve_context_resolve : shared_ptr config_object → shared_ptr config_object →
      config_resolve_options → shared_ptr config_value)
    (make_shared_address : Nat) (self source : shared_config)
    (options : config_resolve_options) : shared_config :=
  let resolved := resolve_context_resolve self._object source._object options
  if resolved.same self._object then
    self
  else
    ⟨make_shared_address, resolved.dynamic_pointer_cast_config_object⟩

/-- The method `config::resolve(options)`, lines 57-59. -/
def shared_config.resolve
    (resolve_context_resolve : shared_ptr config_object → shared_ptr config_object →
      config_resolve_options → shared_ptr config_value)
    (make_shared_address : Nat) (self : shared_config)
    (options : config_resolve_options) : shared_config :=
  self.resolve_with resolve_context_resolve make_shared_address self options

/-! ## Further assumptions, properties and example trees -/

/-- The transform step returns a Number unchanged when a Number is requested. -/
def keeps_numbers (transform : config_value → config_value.type → config_value) : Prop :=
  ∀ v, v.value_type = .NUMBER → transform v .NUMBER = v

/-- The transform step returns a String unchanged when a String is requested. -/
def keeps_strings (transform : config_value → config_value.type → config_value) : Prop :=
  ∀ s q, transform (.config_string s q) .STRING = .config_string s q

/-- The classes a handler `catch (config_exception&)` catches: `config_exception`
and the classes derived from it.  A thrown pointer and a `std::runtime_error`
pass it by. -/
def exception_class.is_config_exception : exception_class → Bool
  | .config_exception => true
  | .missing_exception => true
  | .null_exception => true
  | .wrong_type_exception => true
  | .bug_or_broken_exception => true
  | .config_exception_pointer => false
  | .runtime_error => false

/-- The value `x` is an integer leaf (a 32-bit int or a 64-bit integer). -/
def config_value.is_integer (x : config_value) : Prop :=
  ∃ n, holds_integer x n

/-- The tree `{l: [{a: 1}], m: [1]}`: a list of one Object and a list of one
Number. -/
def object_list_tree : config :=
  ⟨⟨.RESOLVED,
    [("l", .config_list [.simple_config_object .RESOLVED [("a", .config_int 1)]]),
     ("m", .config_list [.config_int 1])]⟩⟩

/-- Scenario 5 of the specification: the receiver `{port: 80}`. -/
def scenario_config_a : config :=
  ⟨⟨.RESOLVED, [("port", .config_int 80)]⟩⟩

/-- Scenario 5 of the specification: the fallback `{port: 8080, host: "x"}`. -/
def scenario_config_b : config :=
  ⟨⟨.RESOLVED, [("port", .config_int 8080), ("host", .config_string "x" .QUOTED)]⟩⟩

/-- The receiver `{x: {p: 1}}`. -/
def nested_config_a : config :=
  ⟨⟨.RESOLVED, [("x", .simple_config_object .RESOLVED [("p", .config_int 1)])]⟩⟩

/-- The fallback `{x: {q: 2}}`. -/
def nested_config_b : config :=
  ⟨⟨.RESOLVED, [("x", .simple_config_object .RESOLVED [("q", .config_int 2)])]⟩⟩

/-- The empty resolved tree `{}`. -/
def empty_config : config := ⟨⟨.RESOLVED, []⟩⟩

/-- The resolved tree `{list: [1, "two", 3]}`: its second element is a String. -/
def mixed_list_tree : config :=
  ⟨⟨.RESOLVED,
    [("list", .config_list [.config_int 1, .config_string "two" .QUOTED, .config_int 3])]⟩⟩

/-- The value `w` of the receiver gives way to the fallback along the path
`p` below it: `w` is Null, or `w` is an Object (and `p` is not empty) in which
the first key of `p` is absent or bound to a value that gives way along the
rest of `p`. -/
def config_value.gives_way : config_value → path → Prop
  | w, [] => w.value_type = .CONFIG_NULL
  | w, key :: rest =>
    w.value_type = .CONFIG_NULL ∨
    ∃ st es, w = .simple_config_object st es ∧
      ∀ w2, es.lookup key = some w2 → config_value.gives_way w2 rest

/-- Scenario 6 of the specification: a source exposing `FOO=bar`. -/
def scenario_environment : List (String × String) := [("FOO", "bar"), ("HOME", "/root")]

/-- A source exposing a variable whose name holds a dot. -/
def dotted_environment : List (String × String) := [("a.b", "v")]

/-- An external resolver that resolves nothing: it hands back the root it is
given. -/
def identity_resolver (root _source : shared_ptr config_object)
    (_options : config_resolve_options) : shared_ptr config_value :=
  match root with
  | .null => .null
  | .points_to a o => .points_to a o.to_value

/-- An external resolver that builds its result at address 99: the empty
resolved Object. -/
def rebuilding_resolver (_root _source : shared_ptr config_object)
    (_options : config_resolve_options) : shared_ptr config_value :=
  .points_to 99 (.simple_config_object .RESOLVED [])

/-- A Config instance at address 1 whose root `{a: 1}`, UNRESOLVED, is at
address 2. -/
def instance_at_1 : shared_config :=
  ⟨1, .points_to 2 ⟨.UNRESOLVED, [("a", .config_int 1)]⟩⟩

/-! ## Basic facts -/

theorem default_transform_no_object_coercion :
    no_object_coercion default_transformer.transform := by
  intro v
  cases v <;> rfl

theorem default_transform_keeps_lists : keeps_lists default_transformer.transform := by
  intro items
  rfl

theorem sub_path_consumed (consumed : path) (key : String) (next : path) :
    path.sub_path (consumed ++ key :: next) 0
      ((consumed ++ key :: next).length - next.length) = consumed ++ [key] := by
  have h : consumed ++ key :: next = (consumed ++ [key]) ++ next := by simp
  have hl : (consumed ++ key :: next).length - next.length = (consumed ++ [key]).length := by
    simp only [List.length_append, List.length_cons, List.length_nil]
    omega
  rw [path.sub_path, hl, h]
  simp only [List.drop_zero, Nat.sub_zero]
  exact List.take_left' rfl

theorem value_type_object_iff (v : config_value) :
    v.value_type = .OBJECT ↔ ∃ st es, v = .simple_config_object st es := by
  cases v <;> simp [config_value.value_type]

theorem cast_object_eq_some (v : config_value) (o : config_object) :
    dynamic_pointer_cast_config_object v = some o ↔ v = o.to_value := by
  cases v <;> cases o <;> simp [dynamic_pointer_cast_config_object, config_object.to_value]

theorem cast_object_eq_none (v : config_value) :
    dynamic_pointer_cast_config_object v = none ↔ v.value_type ≠ .OBJECT := by
  cases v <;> simp [dynamic_pointer_cast_config_object, config_value.value_type]

theorem resolved_lookup (entries : List (String × config_value)) (key : String)
    (v : config_value) (h : config_value.resolved_entries entries = true)
    (hv : entries.lookup key = some v) : v.resolved = true := by
  induction entries with
  | nil => simp at hv
  | cons kv rest ih =>
    obtain ⟨k, w⟩ := kv
    simp only [config_value.resolved_entries, Bool.and_eq_true] at h
    rw [List.lookup_cons] at hv
    split at hv
    · cases hv; exact h.1
    · exact ih h.2 hv

/-! ## One step of the descent -/

section descent

variable (transform : config_value → config_value.type → config_value)
variable (render : path → String)

theorem catch_ok {α : Type} (self : config_object) (p : path) (a : α) :
    config.catch_config_exception render self p (.ok a) = .ok a := rfl

theorem catch_null_dereference {α : Type} (self : config_object) (p : path) :
    config.catch_config_exception render self p (.error .null_dereference : result α)
      = .error .null_dereference := rfl

theorem catch_thrown_resolved {α : Type} (self : config_object) (p : path)
    (ex : config_exception) (h : self.status = .RESOLVED) :
    config.catch_config_exception render self p (.error (.thrown ex) : result α)
      = .error (.thrown ex.rethrown_by_value) := by
  simp [config.catch_config_exception, config_object.get_resolve_status, h]

theorem catch_thrown_unresolved {α : Type} (self : config_object) (p : path)
    (ex : config_exception) (h : self.status ≠ .RESOLVED) :
    config.catch_config_exception render self p (.error (.thrown ex) : result α)
      = .error (.thrown ⟨.config_exception, .has_not_been_resolved (render p)⟩) := by
  simp [config.catch_config_exception, config_object.get_resolve_status, h, throw_exception]

theorem catch_eq_ok {α : Type} (self : config_object) (p : path) (attempt : result α) (a : α) :
    config.catch_config_exception render self p attempt = .ok a ↔ attempt = .ok a := by
  rcases attempt with (ex | _) | b
  · by_cases h : self.status = .RESOLVED
    · simp [catch_thrown_resolved render self p ex h]
    · simp [catch_thrown_unresolved render self p ex h]
  · simp [catch_null_dereference]
  · simp [catch_ok]

theorem catch_eq_null_dereference {α : Type} (self : config_object) (p : path)
    (attempt : result α) :
    config.catch_config_exception render self p attempt = .error .null_dereference
      ↔ attempt = .error .null_dereference := by
  rcases attempt with (ex | _) | b
  · by_cases h : self.status = .RESOLVED
    · simp [catch_thrown_resolved render self p ex h]
    · simp [catch_thrown_unresolved render self p ex h]
  · simp [catch_null_dereference]
  · simp [catch_ok]

theorem find_or_null_static_single (self : config_object) (key : String)
    (expected : config_value.type) (original_path : path) :
    config.find_or_null_static transform render self [key] expected original_path =
      config.catch_config_exception render self [key]
        (config.find_key_or_null transform render self key expected original_path) := by
  simp [config.find_or_null_static]

theorem find_or_null_static_cons (self : config_object) (key k : String) (rest : path)
    (expected : config_value.type) (original_path : path) :
    config.find_or_null_static transform render self (key :: k :: rest) expected original_path =
      config.catch_config_exception render self (key :: k :: rest)
        (match config.find_key transform render self key .OBJECT
            (original_path.sub_path 0 (original_path.length - (k :: rest).length)) with
        | .error f => .error f
        | .ok v =>
          match dynamic_pointer_cast_config_object v with
          | none => .error .null_dereference
          | some o =>
            config.find_or_null_static transform render o (k :: rest) expected original_path) := by
  simp [config.find_or_null_static]

/-- What `find_key(self, key, OBJECT, p)` does, by the value bound to `key`. -/
theorem find_key_object_absent (self : config_object) (key : String) (p : path)
    (h : self.value.lookup key = none) (expected : config_value.type) :
    config.find_key transform render self key expected p =
      .error (.thrown ⟨.missing_exception, .no_configuration_setting (render p)⟩) := by
  simp [config.find_key, config.find_key_or_null, config_object.peek_assuming_resolved, h,
    throw_exception]

theorem find_key_or_null_absent (self : config_object) (key : String) (p : path)
    (h : self.value.lookup key = none) (expected : config_value.type) :
    config.find_key_or_null transform render self key expected p =
      .error (.thrown ⟨.missing_exception, .no_configuration_setting (render p)⟩) := by
  simp [config.find_key_or_null, config_object.peek_assuming_resolved, h, throw_exception]

theorem find_key_object_present (htr : no_object_coercion transform) (self : config_object)
    (key : String) (p : path) (v : config_value) (h : self.value.lookup key = some v) :
    config.find_key transform render self key .OBJECT p =
      if v.value_type = .OBJECT then .ok v
      else if v.value_type = .CONFIG_NULL then
        .error (.thrown ⟨.null_exception, .is_null (render p)⟩)
      else .error (.thrown ⟨.wrong_type_exception, .could_not_be_converted (render p)⟩) := by
  simp only [config.find_key, config.find_key_or_null, config_object.peek_assuming_resolved, h,
    htr v, throw_exception, config.throw_if_null]
  cases v <;> simp [config_value.value_type]

/-- Whatever the transform step does, a value `find_key` returns for OBJECT is an Object. -/
theorem find_key_object_type (self : config_object) (key : String) (p : path)
    (v : config_value)
    (h : config.find_key transform render self key .OBJECT p = .ok v) :
    v.value_type = .OBJECT := by
  simp only [config.find_key, config.find_key_or_null, config_object.peek_assuming_resolved,
    throw_exception, config.throw_if_null] at h
  cases hl : self.value.lookup key with
  | none => simp [hl] at h
  | some w =>
    simp only [hl, ne_eq, reduceCtorEq, not_false_eq_true, if_true, true_and] at h
    generalize transform w .OBJECT = t at h
    by_cases h1 : t.value_type = .OBJECT
    · by_cases h2 : t.value_type = .CONFIG_NULL
      · rw [h1] at h2; cases h2
      · simp [h1] at h
        subst h
        exact h1
    · by_cases h2 : t.value_type = .CONFIG_NULL
      · simp [h1, h2] at h
      · simp [h1, h2] at h

theorem peek_path_cons (self : config_object) (key : String) (next : path)
    (hnext : next ≠ []) :
    self.peek_path (key :: next) =
      match self.value.lookup key with
      | none => .ok none
      | some v =>
        match dynamic_pointer_cast_config_object v with
        | some object => object.peek_path next
        | none => .ok none := by
  cases next with
  | nil => exact absurd rfl hnext
  | cons k rest => simp [config_object.peek_path]

/-- The peek of `pre ++ [key]` is the lookup of `key` in the Object that `pre` leads to. -/
theorem peek_path_append_key (pre : path) (key : String) (self : config_object) :
    self.peek_path (pre ++ [key]) =
      .ok ((self.descend pre).bind (fun o => o.value.lookup key)) := by
  induction pre generalizing self with
  | nil => simp [config_object.peek_path, config_object.descend]
  | cons k pre ih =>
    rw [List.cons_append, peek_path_cons self k (pre ++ [key]) (by simp)]
    simp only [config_object.descend]
    cases self.value.lookup k with
    | none => simp
    | some v => cases v <;> simp [dynamic_pointer_cast_config_object, ih]

theorem peek_path_ne_nil (self : config_object) (p : path) (r : Option config_value)
    (h : self.peek_path p = .ok r) : p ≠ [] := by
  rintro rfl
  simp [config_object.peek_path] at h

/-- Splitting a located path at its last key. -/
theorem peek_path_some_iff (self : config_object) (p : path) (v : config_value) :
    self.peek_path p = .ok (some v) ↔
      ∃ pre key o, p = pre ++ [key] ∧ self.descend pre = some o ∧
        o.value.lookup key = some v := by
  constructor
  · intro h
    have hne := peek_path_ne_nil self p _ h
    obtain ⟨pre, key, rfl⟩ : ∃ pre key, p = pre ++ [key] :=
      ⟨p.dropLast, p.getLast hne, (List.dropLast_append_getLast hne).symm⟩
    rw [peek_path_append_key] at h
    cases hd : self.descend pre with
    | none => simp [hd] at h
    | some o =>
      simp only [hd, Option.bind_some, Except.ok.injEq] at h
      exact ⟨pre, key, o, rfl, hd, h⟩
  · rintro ⟨pre, key, o, rfl, hd, hl⟩
    rw [peek_path_append_key, hd]
    simp [hl]

theorem descend_append (self : config_object) (pre post : path) :
    self.descend (pre ++ post) = (self.descend pre).bind (fun o => o.descend post) := by
  induction pre generalizing self with
  | nil => simp [config_object.descend]
  | cons k pre ih =>
    simp only [List.cons_append, config_object.descend]
    cases self.value.lookup k with
    | none => simp
    | some v => cases v <;> simp [dynamic_pointer_cast_config_object, ih]

theorem descend_key (self : config_object) (key : String) :
    self.descend [key] =
      (self.value.lookup key).bind dynamic_pointer_cast_config_object := by
  simp only [config_object.descend]
  cases self.value.lookup key with
  | none => simp
  | some v => cases v <;> simp [dynamic_pointer_cast_config_object]

theorem bind_cast_eq_some (r : Option config_value) (o : config_object) :
    r.bind dynamic_pointer_cast_config_object = some o ↔ r = some o.to_value := by
  cases r with
  | none => simp
  | some v =>
    cases v <;> cases o <;>
      simp [dynamic_pointer_cast_config_object, config_object.to_value]

/-- A path that leads to an Object is a path the peek locates that Object at. -/
theorem descend_eq_some_iff (self o : config_object) (p : path) (hp : p ≠ []) :
    self.descend p = some o ↔ self.peek_path p = .ok (some o.to_value) := by
  obtain ⟨pre, key, rfl⟩ : ∃ pre key, p = pre ++ [key] :=
    ⟨p.dropLast, p.getLast hp, (List.dropLast_append_getLast hp).symm⟩
  rw [peek_path_append_key, descend_append]
  cases self.descend pre with
  | none => simp
  | some o2 =>
    simp only [Option.bind_some, descend_key, Except.ok.injEq]
    exact bind_cast_eq_some _ o

theorem resolved_descend (self o : config_object) (p : path)
    (h : self.to_value.resolved = true) (hd : self.descend p = some o) :
    o.to_value.resolved = true := by
  induction p generalizing self with
  | nil =>
    simp only [config_object.descend, Option.some.injEq] at hd
    subst hd; exact h
  | cons k rest ih =>
    simp only [config_object.descend] at hd
    cases hl : self.value.lookup k with
    | none => simp [hl] at hd
    | some v =>
      simp only [hl] at hd
      simp only [config_object.to_value, config_value.resolved, Bool.and_eq_true] at h
      have hv := resolved_lookup self.value k v h.2 hl
      cases v <;> simp only [dynamic_pointer_cast_config_object, reduceCtorEq] at hd
      exact ih ⟨_, _⟩ hv hd

theorem resolved_status (self : config_object) (h : self.to_value.resolved = true) :
    self.status = .RESOLVED := by
  simp only [config_object.to_value, config_value.resolved, Bool.and_eq_true,
    decide_eq_true_eq] at h
  exact h.1

theorem find_or_null_static_step (self : config_object) (key : String) (next : path)
    (hnext : next ≠ []) (expected : config_value.type) (original_path : path) :
    config.find_or_null_static transform render self (key :: next) expected original_path =
      config.catch_config_exception render self (key :: next)
        (match config.find_key transform render self key .OBJECT
            (original_path.sub_path 0 (original_path.length - next.length)) with
        | .error f => .error f
        | .ok v =>
          match dynamic_pointer_cast_config_object v with
          | none => .error .null_dereference
          | some o =>
            config.find_or_null_static transform render o next expected original_path) := by
  cases next with
  | nil => exact absurd rfl hnext
  | cons k rest => exact find_or_null_static_cons transform render self key k rest _ _

theorem find_key_or_null_present (self : config_object) (key : String) (p : path)
    (expected : config_value.type) (v : config_value)
    (h : self.value.lookup key = some v) :
    config.find_key_or_null transform render self key expected p =
      if expected = .UNSPECIFIED then .ok v
      else if (transform v expected).value_type = expected ∨
          (transform v expected).value_type = .CONFIG_NULL then .ok (transform v expected)
      else .error (.thrown ⟨.wrong_type_exception, .could_not_be_converted (render p)⟩) := by
  simp only [config.find_key_or_null, config_object.peek_assuming_resolved, h, throw_exception]
  by_cases hK : expected = .UNSPECIFIED
  · simp [hK]
  · simp only [ne_eq, hK, not_false_eq_true, if_true, true_and, if_false]
    by_cases h1 : (transform v expected).value_type = expected
    · simp [h1]
    · by_cases h2 : (transform v expected).value_type = .CONFIG_NULL
      · simp [h1, h2]
      · simp [h1, h2]

theorem find_key_or_null_eq_ok_iff (self : config_object) (key : String) (p : path)
    (expected : config_value.type) (t : config_value) :
    config.find_key_or_null transform render self key expected p = .ok t ↔
      ∃ v, self.value.lookup key = some v ∧ accepted transform expected v t := by
  cases hl : self.value.lookup key with
  | none => simp [find_key_or_null_absent transform render self key p hl]
  | some v =>
    rw [find_key_or_null_present transform render self key p expected v hl]
    simp only [Option.some.injEq, exists_eq_left', accepted]
    by_cases hK : expected = .UNSPECIFIED
    · simp [hK, eq_comm]
    · simp only [hK, if_false, false_and, false_or, ne_eq, not_false_eq_true, true_and]
      by_cases hc : (transform v expected).value_type = expected ∨
          (transform v expected).value_type = .CONFIG_NULL
      · simp only [hc, if_true, Except.ok.injEq]
        constructor
        · rintro rfl; exact ⟨rfl, hc⟩
        · rintro ⟨rfl, _⟩; rfl
      · simp only [hc, if_false, reduceCtorEq, false_iff]
        rintro ⟨rfl, h⟩
        exact hc h

theorem find_key_or_null_ne_null_dereference (self : config_object) (key : String) (p : path)
    (expected : config_value.type) :
    config.find_key_or_null transform render self key expected p ≠ .error .null_dereference := by
  cases hl : self.value.lookup key with
  | none => simp [find_key_or_null_absent transform render self key p hl]
  | some v =>
    rw [find_key_or_null_present transform render self key p expected v hl]
    split
    · simp
    · split <;> simp

theorem find_key_ne_null_dereference (self : config_object) (key : String) (p : path)
    (expected : config_value.type) :
    config.find_key transform render self key expected p ≠ .error .null_dereference := by
  have h := find_key_or_null_ne_null_dereference transform render self key p expected
  simp only [config.find_key]
  rcases hr : config.find_key_or_null transform render self key expected p with (ex | _) | v
  · simp
  · exact absurd hr h
  · simp only [config.throw_if_null, throw_exception]
    split <;> simp

/-- The descent dereferences no null pointer on a non-empty path, whatever the
transform step does. -/
theorem find_or_null_static_ne_null_dereference (desired : path) (hne : desired ≠ [])
    (self : config_object) (expected : config_value.type) (original_path : path) :
    config.find_or_null_static transform render self desired expected original_path
      ≠ .error .null_dereference := by
  induction desired generalizing self with
  | nil => exact absurd rfl hne
  | cons key next ih =>
    by_cases hnext : next = []
    · subst hnext
      rw [find_or_null_static_single, Ne, catch_eq_null_dereference]
      exact find_key_or_null_ne_null_dereference transform render self key _ expected
    · rw [find_or_null_static_step transform render self key next hnext, Ne,
        catch_eq_null_dereference]
      have hk := find_key_ne_null_dereference transform render self key
        (original_path.sub_path 0 (original_path.length - next.length)) .OBJECT
      rcases hr : config.find_key transform render self key .OBJECT
        (original_path.sub_path 0 (original_path.length - next.length)) with (ex | _) | v
      · simp
      · exact absurd hr hk
      · have hty := find_key_object_type transform render self key _ v hr
        obtain ⟨st, es, rfl⟩ := (value_type_object_iff v).1 hty
        simp only [dynamic_pointer_cast_config_object]
        exact ih hnext ⟨st, es⟩

/-- The descent returns exactly when the peek locates a value that passes the
kind check, whatever the resolve-status of the Objects on the way. -/
theorem find_or_null_static_eq_ok_iff (htr : no_object_coercion transform)
    (desired : path) (hne : desired ≠ []) (self : config_object)
    (expected : config_value.type) (original_path : path) (t : config_value) :
    config.find_or_null_static transform render self desired expected original_path = .ok t ↔
      ∃ v, self.peek_path desired = .ok (some v) ∧ accepted transform expected v t := by
  induction desired generalizing self with
  | nil => exact absurd rfl hne
  | cons key next ih =>
    by_cases hnext : next = []
    · subst hnext
      rw [find_or_null_static_single, catch_eq_ok, find_key_or_null_eq_ok_iff]
      simp [config_object.peek_path]
    · rw [find_or_null_static_step transform render self key next hnext, catch_eq_ok,
        peek_path_cons self key next hnext]
      cases hl : self.value.lookup key with
      | none =>
        rw [find_key_object_absent transform render self key _ hl]
        simp
      | some v =>
        rw [find_key_object_present transform render htr self key _ v hl]
        cases v <;>
          simp [config_value.value_type, dynamic_pointer_cast_config_object, ih hnext]

/-- On an Object that is not RESOLVED, the descent returns or throws the "has
not been resolved" exception on the path it was asked for. -/
theorem find_or_null_static_unresolved (desired : path) (hne : desired ≠ [])
    (self : config_object) (hst : self.status ≠ .RESOLVED)
    (expected : config_value.type) (original_path : path) (f : failure)
    (h : config.find_or_null_static transform render self desired expected original_path
      = .error f) :
    f = .thrown ⟨.config_exception, .has_not_been_resolved (render desired)⟩ := by
  have hnd := find_or_null_static_ne_null_dereference transform render desired hne self
    expected original_path
  cases desired with
  | nil => exact absurd rfl hne
  | cons key next =>
    cases f with
    | null_dereference => exact absurd h hnd
    | thrown ex =>
      simp only [config.find_or_null_static] at h
      generalize (if next.isEmpty = true then
        config.find_key_or_null transform render self key expected original_path
        else _) = attempt at h
      rcases attempt with (ex2 | _) | v
      · rw [catch_thrown_unresolved render self _ ex2 hst] at h
        cases h; rfl
      · simp [catch_null_dereference] at h
      · simp [catch_ok] at h

theorem rethrown_by_value_idem (ex : config_exception) :
    ex.rethrown_by_value.rethrown_by_value = ex.rethrown_by_value := rfl

/-- An outcome the `catch` clause of a RESOLVED Object has produced passes
unchanged through the `catch` clause of another RESOLVED Object. -/
theorem catch_catch_resolved {α : Type} (self o : config_object) (p q : path)
    (hs : self.status = .RESOLVED) (ho : o.status = .RESOLVED) (attempt : result α) :
    config.catch_config_exception render self p
        (config.catch_config_exception render o q attempt) =
      config.catch_config_exception render o q attempt := by
  rcases attempt with (ex | _) | v
  · rw [catch_thrown_resolved render o q ex ho, catch_thrown_resolved render self p _ hs]
    rfl
  · simp [catch_null_dereference]
  · simp [catch_ok]

theorem find_or_null_static_catch_resolved (self o : config_object) (p : path)
    (hs : self.status = .RESOLVED) (ho : o.status = .RESOLVED) (desired : path)
    (expected : config_value.type) (original_path : path) :
    config.catch_config_exception render self p
        (config.find_or_null_static transform render o desired expected original_path) =
      config.find_or_null_static transform render o desired expected original_path := by
  cases desired with
  | nil => simp [config.find_or_null_static, catch_null_dereference]
  | cons key next =>
    simp only [config.find_or_null_static]
    exact catch_catch_resolved render self o p _ hs ho _

/-- In a resolved tree, the descent along `pre ++ key :: post` is the descent
along `key :: post` from the Object that `pre` leads to. -/
theorem find_or_null_static_descend (htr : no_object_coercion transform)
    (pre : path) (self o : config_object) (hres : self.to_value.resolved = true)
    (hd : self.descend pre = some o) (consumed : path) (key : String) (post : path)
    (expected : config_value.type) :
    config.find_or_null_static transform render self (pre ++ key :: post) expected
        (consumed ++ pre ++ key :: post) =
      config.find_or_null_static transform render o (key :: post) expected
        (consumed ++ pre ++ key :: post) := by
  induction pre generalizing self consumed with
  | nil =>
    simp only [config_object.descend, Option.some.injEq] at hd
    subst hd
    simp
  | cons k pre ih =>
    simp only [config_object.descend] at hd
    cases hl : self.value.lookup k with
    | none => simp [hl] at hd
    | some v =>
      simp only [hl] at hd
      have hresv : v.resolved = true := by
        have h2 := hres
        simp only [config_object.to_value, config_value.resolved, Bool.and_eq_true] at h2
        exact resolved_lookup self.value k v h2.2 hl
      have horig : consumed ++ (k :: pre) ++ key :: post
          = consumed ++ k :: (pre ++ key :: post) := by simp
      have horig2 : consumed ++ (k :: pre) ++ key :: post
          = (consumed ++ [k]) ++ pre ++ key :: post := by simp
      rw [List.cons_append,
        find_or_null_static_step transform render self k (pre ++ key :: post) (by simp)]
      rw [horig, sub_path_consumed,
        find_key_object_present transform render htr self k _ v hl]
      cases v <;> simp only [dynamic_pointer_cast_config_object, reduceCtorEq] at hd
      rename_i st es
      simp only [config_value.value_type, if_true, dynamic_pointer_cast_config_object]
      have hih := ih ⟨st, es⟩ hresv hd (consumed ++ [k])
      rw [← horig, horig2, hih]
      exact find_or_null_static_catch_resolved transform render self o _
        (resolved_status self hres)
        (resolved_status o (resolved_descend ⟨st, es⟩ o pre hresv hd)) _ _ _

/-- In a RESOLVED Object that lacks `key`, the descent throws the missing
exception on the path consumed up to `key`. -/
theorem find_or_null_static_absent (o : config_object) (ho : o.status = .RESOLVED)
    (key : String) (post consumed : path) (expected : config_value.type)
    (hl : o.value.lookup key = none) :
    config.find_or_null_static transform render o (key :: post) expected
        (consumed ++ key :: post) =
      .error (.thrown ⟨.config_exception,
        .no_configuration_setting (render (consumed ++ [key]))⟩) := by
  by_cases hpost : post = []
  · subst hpost
    rw [find_or_null_static_single, find_key_or_null_absent transform render o key _ hl,
      catch_thrown_resolved render o _ _ ho]
    rfl
  · rw [find_or_null_static_step transform render o key post hpost, sub_path_consumed,
      find_key_object_absent transform render o key _ hl]
    simp only []
    rw [catch_thrown_resolved render o _ _ ho]
    rfl

/-- In a RESOLVED Object that binds `key` to a value that is not an Object, the
descent to a deeper key throws on the path consumed up to `key`: the null
exception for a Null, the wrong-type exception otherwise. -/
theorem find_or_null_static_not_object (htr : no_object_coercion transform)
    (o : config_object) (ho : o.status = .RESOLVED)
    (key : String) (post consumed : path) (hpost : post ≠ []) (expected : config_value.type)
    (v : config_value) (hl : o.value.lookup key = some v) (hv : v.value_type ≠ .OBJECT) :
    config.find_or_null_static transform render o (key :: post) expected
        (consumed ++ key :: post) =
      if v.value_type = .CONFIG_NULL then
        .error (.thrown ⟨.config_exception, .is_null (render (consumed ++ [key]))⟩)
      else
        .error (.thrown ⟨.config_exception,
          .could_not_be_converted (render (consumed ++ [key]))⟩) := by
  rw [find_or_null_static_step transform render o key post hpost, sub_path_consumed,
    find_key_object_present transform render htr o key _ v hl]
  simp only [hv, if_false]
  by_cases hn : v.value_type = .CONFIG_NULL
  · simp only [hn, if_true]
    rw [catch_thrown_resolved render o _ _ ho]
    rfl
  · simp only [hn, if_false]
    rw [catch_thrown_resolved render o _ _ ho]
    rfl

/-- In a RESOLVED Object that binds the last key of the path to `v`, the
descent returns `v` or its transform, or throws the wrong-type exception on
the original path. -/
theorem find_or_null_static_last (o : config_object) (ho : o.status = .RESOLVED)
    (key : String) (original_path : path) (expected : config_value.type)
    (v : config_value) (hl : o.value.lookup key = some v) :
    config.find_or_null_static transform render o [key] expected original_path =
      if expected = .UNSPECIFIED then .ok v
      else if (transform v expected).value_type = expected ∨
          (transform v expected).value_type = .CONFIG_NULL then .ok (transform v expected)
      else .error (.thrown ⟨.config_exception,
        .could_not_be_converted (render original_path)⟩) := by
  rw [find_or_null_static_single,
    find_key_or_null_present transform render o key _ expected v hl]
  by_cases hK : expected = .UNSPECIFIED
  · simp [hK, catch_ok]
  · simp only [hK, if_false]
    split
    · simp [catch_ok]
    · rw [catch_thrown_resolved render o _ _ ho]
      rfl

/-- Whatever the transform step does, a value the descent returns for an
expected kind has that kind or is Null. -/
theorem find_or_null_static_ok_type (desired : path) (self : config_object)
    (expected : config_value.type) (hK : expected ≠ .UNSPECIFIED) (original_path : path)
    (t : config_value)
    (h : config.find_or_null_static transform render self desired expected original_path
      = .ok t) :
    t.value_type = expected ∨ t.value_type = .CONFIG_NULL := by
  induction desired generalizing self with
  | nil => simp [config.find_or_null_static] at h
  | cons key next ih =>
    by_cases hnext : next = []
    · subst hnext
      rw [find_or_null_static_single, catch_eq_ok, find_key_or_null_eq_ok_iff] at h
      obtain ⟨v, _, hacc⟩ := h
      rcases hacc with ⟨h1, _⟩ | ⟨_, _, h3⟩
      · exact absurd h1 hK
      · exact h3
    · rw [find_or_null_static_step transform render self key next hnext, catch_eq_ok] at h
      rcases hr : config.find_key transform render self key .OBJECT
        (original_path.sub_path 0 (original_path.length - next.length)) with f | v
      · simp [hr] at h
      · have hty := find_key_object_type transform render self key _ v hr
        obtain ⟨st, es, rfl⟩ := (value_type_object_iff v).1 hty
        simp only [hr, dynamic_pointer_cast_config_object] at h
        exact ih ⟨st, es⟩ h

end descent

/-! ## The method `find` -/

section find

variable (transform : config_value → config_value.type → config_value)
variable (render : path → String)
variable (new_path : String → path)

theorem find_eq (c : config) (path_expression : String) (expected : config_value.type) :
    c.find transform render new_path path_expression expected =
      match config.find_or_null_static transform render c._object (new_path path_expression)
        expected (new_path path_expression) with
      | .error f => .error f
      | .ok v => config.throw_if_null render v expected (new_path path_expression) := rfl

theorem find_of_descent_error (c : config) (path_expression : String)
    (expected : config_value.type) (f : failure)
    (h : config.find_or_null_static transform render c._object (new_path path_expression)
      expected (new_path path_expression) = .error f) :
    c.find transform render new_path path_expression expected = .error f := by
  rw [find_eq, h]

theorem find_of_descent_ok (c : config) (path_expression : String)
    (expected : config_value.type) (t : config_value)
    (h : config.find_or_null_static transform render c._object (new_path path_expression)
      expected (new_path path_expression) = .ok t) :
    c.find transform render new_path path_expression expected =
      if t.value_type = .CONFIG_NULL then
        .error (.thrown ⟨.null_exception, .is_null (render (new_path path_expression))⟩)
      else .ok t := by
  rw [find_eq, h]
  rfl

/-- A value `find` returns for an expected kind has exactly that kind. -/
theorem find_ok_type (c : config) (path_expression : String)
    (expected : config_value.type) (hK : expected ≠ .UNSPECIFIED) (t : config_value)
    (h : c.find transform render new_path path_expression expected = .ok t) :
    t.value_type = expected := by
  rw [find_eq] at h
  rcases hr : config.find_or_null_static transform render c._object (new_path path_expression)
    expected (new_path path_expression) with f | v
  · simp [hr] at h
  · simp only [hr, config.throw_if_null, throw_exception] at h
    split at h
    · simp at h
    · rename_i hnull
      simp only [Except.ok.injEq] at h
      subst h
      rcases find_or_null_static_ok_type transform render _ _ expected hK _ _ hr with h1 | h1
      · exact h1
      · exact absurd h1 hnull

theorem find_ne_null_dereference (c : config) (path_expression : String)
    (hne : new_path path_expression ≠ []) (expected : config_value.type) :
    c.find transform render new_path path_expression expected ≠ .error .null_dereference := by
  rw [find_eq]
  have hnd := find_or_null_static_ne_null_dereference transform render _ hne c._object
    expected (new_path path_expression)
  rcases hr : config.find_or_null_static transform render c._object (new_path path_expression)
    expected (new_path path_expression) with (ex | _) | v
  · simp
  · exact absurd hr hnd
  · simp only [config.throw_if_null, throw_exception]
    split <;> simp

end find

section getters

variable (transform : config_value → config_value.type → config_value)
variable (render : path → String)
variable (new_path : String → path)

theorem descend_of_located_object (self : config_object) (pre : path)
    (h : pre = [] ∨ ∃ st es, self.peek_path pre = .ok (some (.simple_config_object st es))) :
    ∃ o, self.descend pre = some o := by
  rcases h with rfl | ⟨st, es, h⟩
  · exact ⟨self, rfl⟩
  · have hne := peek_path_ne_nil self pre _ h
    exact ⟨⟨st, es⟩, (descend_eq_some_iff self ⟨st, es⟩ pre hne).2 h⟩

/-- In a resolved tree, `find` throws the missing exception when the descent
reaches an Object that lacks the next key. -/
theorem find_absent (htr : no_object_coercion transform) (c : config)
    (hres : c.root.to_value.resolved = true) (path_expression : String)
    (pre : path) (key : String) (post : path)
    (hp : new_path path_expression = pre ++ key :: post)
    (hpre : pre = [] ∨
      ∃ st es, c.root.peek_path pre = .ok (some (.simple_config_object st es)))
    (habs : c.root.peek_path (pre ++ [key]) = .ok none) (expected : config_value.type) :
    c.find transform render new_path path_expression expected =
      .error (.thrown ⟨.config_exception,
        .no_configuration_setting (render (pre ++ [key]))⟩) := by
  obtain ⟨o, hd⟩ := descend_of_located_object c.root pre hpre
  rw [peek_path_append_key, hd] at habs
  simp only [Option.bind_some, Except.ok.injEq] at habs
  apply find_of_descent_error
  rw [hp]
  have h1 := find_or_null_static_descend transform render htr pre c.root o hres hd []
    key post expected
  simp only [List.nil_append] at h1
  have ho := resolved_status o (resolved_descend c.root o pre hres hd)
  have h2 := find_or_null_static_absent transform render o ho key post pre expected habs
  exact h1.trans h2

/-- In a resolved tree, `find` throws the wrong-type exception on the consumed
path when a proper part of the path locates a value that is neither an Object
nor Null. -/
theorem find_through_non_object (htr : no_object_coercion transform) (c : config)
    (hres : c.root.to_value.resolved = true) (path_expression : String)
    (pre post : path) (hp : new_path path_expression = pre ++ post) (hpost : post ≠ [])
    (v : config_value) (hv : c.root.peek_path pre = .ok (some v))
    (hobj : v.value_type ≠ .OBJECT) (expected : config_value.type) :
    c.find transform render new_path path_expression expected =
      if v.value_type = .CONFIG_NULL then
        .error (.thrown ⟨.config_exception, .is_null (render pre)⟩)
      else
        .error (.thrown ⟨.config_exception, .could_not_be_converted (render pre)⟩) := by
  obtain ⟨pre0, key, o, rfl, hd, hl⟩ := (peek_path_some_iff c.root pre v).1 hv
  have h1 := find_or_null_static_descend transform render htr pre0 c.root o hres hd []
    key post expected
  simp only [List.nil_append] at h1
  have ho := resolved_status o (resolved_descend c.root o pre0 hres hd)
  have h2 := find_or_null_static_not_object transform render htr o ho key post pre0 hpost
    expected v hl hobj
  have h3 := h1.trans h2
  have hp2 : new_path path_expression = pre0 ++ key :: post := by rw [hp]; simp
  by_cases hn : v.value_type = .CONFIG_NULL
  · simp only [hn, if_true] at h3 ⊢
    apply find_of_descent_error
    rw [hp2]; exact h3
  · simp only [hn, if_false] at h3 ⊢
    apply find_of_descent_error
    rw [hp2]; exact h3

/-- The descent returns the located value or its transform when the kind
check accepts it, whatever the resolve-status of the tree. -/
theorem descent_of_located (htr : no_object_coercion transform) (c : config)
    (path_expression : String) (v t : config_value)
    (hv : c.root.peek_path (new_path path_expression) = .ok (some v))
    (expected : config_value.type) (hacc : accepted transform expected v t) :
    config.find_or_null_static transform render c._object (new_path path_expression)
      expected (new_path path_expression) = .ok t :=
  (find_or_null_static_eq_ok_iff transform render htr _ (peek_path_ne_nil _ _ _ hv) c._object
    expected _ t).2 ⟨v, hv, hacc⟩

/-- In a resolved tree, `find` throws the wrong-type exception on the full path
when the transform of the located value has neither the expected kind nor the
Null kind. -/
theorem find_wrong_type (htr : no_object_coercion transform) (c : config)
    (hres : c.root.to_value.resolved = true) (path_expression : String) (v : config_value)
    (hv : c.root.peek_path (new_path path_expression) = .ok (some v))
    (expected : config_value.type) (hK : expected ≠ .UNSPECIFIED)
    (h1 : (transform v expected).value_type ≠ expected)
    (h2 : (transform v expected).value_type ≠ .CONFIG_NULL) :
    c.find transform render new_path path_expression expected =
      .error (.thrown ⟨.config_exception,
        .could_not_be_converted (render (new_path path_expression))⟩) := by
  obtain ⟨pre0, key, o, hp, hd, hl⟩ := (peek_path_some_iff c.root _ v).1 hv
  have h3 := find_or_null_static_descend transform render htr pre0 c.root o hres hd []
    key [] expected
  simp only [List.nil_append] at h3
  have ho := resolved_status o (resolved_descend c.root o pre0 hres hd)
  have h4 := find_or_null_static_last transform render o ho key (pre0 ++ [key]) expected v hl
  simp only [hK, h1, h2, if_false, or_self] at h4
  apply find_of_descent_error
  rw [hp]
  exact h3.trans h4

theorem int_value_range_checked_ne_null_dereference (l : Int) (path_expression : String) :
    int_value_range_checked l path_expression ≠ .error .null_dereference := by
  unfold int_value_range_checked
  split <;> simp [throw_exception]

theorem long_value_of_number (t : config_value) (h : t.value_type = .NUMBER) :
    ∃ l, t.long_value = some l := by
  cases t <;> simp [config_value.value_type] at h <;> exact ⟨_, rfl⟩

theorem double_value_of_number (t : config_value) (h : t.value_type = .NUMBER) :
    ∃ d, t.double_value = some d := by
  cases t <;> simp [config_value.value_type] at h <;> exact ⟨_, rfl⟩

end getters

section unresolved

variable (transform : config_value → config_value.type → config_value)
variable (render : path → String)
variable (new_path : String → path)

/-- On a tree whose root is not RESOLVED, a failure of `find` is the "has not
been resolved" exception of the descent or the null exception of the check
that follows it. -/
theorem find_unresolved_failure (c : config) (hst : c.root.get_resolve_status ≠ .RESOLVED)
    (path_expression : String) (hne : new_path path_expression ≠ [])
    (expected : config_value.type) (f : failure)
    (h : c.find transform render new_path path_expression expected = .error f) :
    f = .thrown ⟨.config_exception,
        .has_not_been_resolved (render (new_path path_expression))⟩ ∨
    f = .thrown ⟨.null_exception, .is_null (render (new_path path_expression))⟩ := by
  rw [find_eq] at h
  rcases hr : config.find_or_null_static transform render c._object (new_path path_expression)
    expected (new_path path_expression) with f2 | t
  · simp only [hr, Except.error.injEq] at h
    subst h
    exact Or.inl (find_or_null_static_unresolved transform render _ hne c._object hst
      expected _ _ hr)
  · simp only [hr, config.throw_if_null, throw_exception] at h
    split at h
    · simp only [Except.error.injEq] at h
      exact Or.inr h.symm
    · cases h

theorem unresolved_failure_of_find (c : config)
    (hst : c.root.get_resolve_status ≠ .RESOLVED)
    (path_expression : String) (hne : new_path path_expression ≠ [])
    (expected : config_value.type) (f : failure)
    (h : c.find transform render new_path path_expression expected = .error f) :
    unresolved_failure f := by
  rcases find_unresolved_failure transform render new_path c hst path_expression hne
    expected f h with rfl | rfl
  · exact ⟨_, rfl, Or.inl rfl⟩
  · exact ⟨_, rfl, Or.inr (Or.inl rfl)⟩

/-- On a tree whose root is not RESOLVED, `find` throws the "has not been
resolved" exception exactly when the descent does not succeed. -/
theorem find_unresolved_iff (htr : no_object_coercion transform) (c : config)
    (hst : c.root.get_resolve_status ≠ .RESOLVED)
    (path_expression : String) (hne : new_path path_expression ≠ [])
    (expected : config_value.type) :
    c.find transform render new_path path_expression expected =
        .error (.thrown ⟨.config_exception,
          .has_not_been_resolved (render (new_path path_expression))⟩) ↔
      ¬ c.descent_succeeds transform (new_path path_expression) expected := by
  have hiff := fun t => find_or_null_static_eq_ok_iff transform render htr
    (new_path path_expression) hne c._object expected (new_path path_expression) t
  rw [find_eq]
  rcases hr : config.find_or_null_static transform render c._object (new_path path_expression)
    expected (new_path path_expression) with f2 | t
  · have hf := find_or_null_static_unresolved transform render _ hne c._object hst
      expected _ _ hr
    subst hf
    simp only [true_iff]
    rintro ⟨v, t, hv, hacc⟩
    have := (hiff t).2 ⟨v, hv, hacc⟩
    rw [hr] at this
    cases this
  · have hs : c.descent_succeeds transform (new_path path_expression) expected := by
      obtain ⟨v, hv, hacc⟩ := (hiff t).1 hr
      exact ⟨v, t, hv, hacc⟩
    simp only [config.throw_if_null, throw_exception, hs, not_true_eq_false, iff_false]
    split
    · intro h
      simp only [Except.error.injEq, failure.thrown.injEq, config_exception.mk.injEq] at h
      exact absurd h.1 (by decide)
    · simp

end unresolved

/-! ## The typed getters -/

section getters

variable (transform : config_value → config_value.type → config_value)
variable (render : path → String)
variable (new_path : String → path)

/-- A failure of `find` is the failure of every typed getter. -/
theorem every_getter_fails_of_find (c : config) (path_expression : String) (f : failure)
    (h : ∀ expected, c.find transform render new_path path_expression expected = .error f) :
    c.every_getter_fails_with transform render new_path path_expression f := by
  refine ⟨?_, ?_, ?_, ?_, ?_, ?_, ?_, ?_⟩
  · simp [config.get_value, h]
  · simp [config.get_bool, h]
  · simp [config.get_int, h]
  · simp [config.get_long, h]
  · simp [config.get_double, h]
  · simp [config.get_string, h]
  · simp [config.get_object, h]
  · simp [config.get_list, h]

end getters

/-! ## C1 -/

/-- C1, as stated, fails on scenario 3 of the specification: in the resolved
tree `{a: {b: 5}}` no value is located at `a.b.c`, yet `get_int("a.b.c")`
raises WrongType on `a.b`, not Missing. -/
theorem never_inserted_path_raises_wrong_type :
    scenario_tree_a_b_5.root.to_value.resolved = true ∧
    scenario_tree_a_b_5.root.peek_path (path.new_path "a.b.c") = .ok none ∧
    scenario_tree_a_b_5.get_int default_transformer.transform path.render path.new_path
        "a.b.c"
      = .error (.thrown ⟨.config_exception, .could_not_be_converted "a.b"⟩) ∧
    (⟨.config_exception, .could_not_be_converted "a.b"⟩ : config_exception).kind
      ≠ .Missing :=
  ⟨rfl, rfl, rfl, by decide⟩

/-- C1, amended: in a resolved tree, when the keys of the path before some key
lead through Objects to an Object that lacks that key, every typed getter
raises Missing (the message of `missing_exception`, thrown again by value), and
the path it carries is the rendered path up to and including the absent key. -/
theorem getters_raise_missing_at_absent_key
    (transform : config_value → config_value.type → config_value)
    (render : path → String) (new_path : String → path)
    (htr : no_object_coercion transform) (c : config)
    (hres : c.root.to_value.resolved = true) (path_expression : String)
    (pre : path) (key : String) (post : path)
    (hp : new_path path_expression = pre ++ key :: post)
    (hpre : pre = [] ∨
      ∃ st es, c.root.peek_path pre = .ok (some (.simple_config_object st es)))
    (habs : c.root.peek_path (pre ++ [key]) = .ok none) :
    c.every_getter_fails_with transform render new_path path_expression
      (.thrown ⟨.config_exception, .no_configuration_setting (render (pre ++ [key]))⟩) ∧
    (⟨.config_exception, .no_configuration_setting (render (pre ++ [key]))⟩ :
      config_exception).kind = .Missing :=
  ⟨every_getter_fails_of_find transform render new_path c path_expression _
    (fun expected => find_absent transform render new_path htr c hres path_expression
      pre key post hp hpre habs expected), rfl⟩

/-- The amended C1 at `a.z` in the tree of scenario 1: the Object at `a` lacks
`z`, and every getter raises Missing on `a.z`. -/
theorem getters_raise_missing_at_absent_key_witness :
    scenario_tree.every_getter_fails_with default_transformer.transform path.render
      path.new_path "a.z"
      (.thrown ⟨.config_exception, .no_configuration_setting "a.z"⟩) ∧
    (⟨.config_exception, .no_configuration_setting "a.z"⟩ : config_exception).kind
      = .Missing :=
  getters_raise_missing_at_absent_key default_transformer.transform path.render
    path.new_path default_transform_no_object_coercion scenario_tree rfl "a.z"
    ["a"] "z" [] rfl
    (Or.inr ⟨.RESOLVED, [("b", .simple_config_object .RESOLVED [("c", .config_int 1)])], rfl⟩)
    rfl

/-! ## C2 -/

/-- C2: `has_path_or_null` is true exactly when the peek locates a value,
`has_path` is true exactly when the peek locates a value whose kind is not
Null; both return (a Boolean) on every non-empty path; a path at which the peek
locates nothing gives false for both, and a path holding a Null gives
`has_path` false and `has_path_or_null` true. -/
theorem has_path_iff_peek (render : path → String) (new_path : String → path)
    (c : config) (path_expression : String) :
    (c.has_path_or_null render new_path path_expression = .ok true ↔
      ∃ v, c.root.peek_path (new_path path_expression) = .ok (some v)) ∧
    (c.has_path render new_path path_expression = .ok true ↔
      ∃ v, c.root.peek_path (new_path path_expression) = .ok (some v) ∧
        v.value_type ≠ .CONFIG_NULL) ∧
    (new_path path_expression ≠ [] →
      ∃ b1 b2, c.has_path render new_path path_expression = .ok b1 ∧
        c.has_path_or_null render new_path path_expression = .ok b2) ∧
    (c.root.peek_path (new_path path_expression) = .ok none →
      c.has_path render new_path path_expression = .ok false ∧
      c.has_path_or_null render new_path path_expression = .ok false) ∧
    (∀ v, c.root.peek_path (new_path path_expression) = .ok (some v) →
      v.value_type = .CONFIG_NULL →
      c.has_path render new_path path_expression = .ok false ∧
      c.has_path_or_null render new_path path_expression = .ok true) := by
  have hpeek : ∀ r, c.root.peek_path (new_path path_expression) = .ok r →
      c.has_path_peek render new_path path_expression = .ok r := by
    intro r hr
    simp only [config.has_path_peek]
    simp only [config.root] at hr
    rw [hr, catch_ok]
  have hcases : new_path path_expression ≠ [] →
      ∃ r, c.root.peek_path (new_path path_expression) = .ok r := by
    intro hne
    obtain ⟨pre, key, hp⟩ : ∃ pre key, new_path path_expression = pre ++ [key] :=
      ⟨_, _, (List.dropLast_append_getLast hne).symm⟩
    rw [hp, peek_path_append_key]
    exact ⟨_, rfl⟩
  have hnil : new_path path_expression = [] →
      c.has_path_peek render new_path path_expression = .error .null_dereference := by
    intro hnil
    simp [config.has_path_peek, hnil, config_object.peek_path, catch_null_dereference]
  by_cases hne : new_path path_expression = []
  · have h1 := hnil hne
    have h2 : c.root.peek_path (new_path path_expression) = .error .null_dereference := by
      simp [hne, config_object.peek_path]
    refine ⟨?_, ?_, ?_, ?_, ?_⟩
    · simp [config.has_path_or_null, h1, h2]
    · simp [config.has_path, h1, h2]
    · intro h; exact absurd hne h
    · intro h; rw [h2] at h; cases h
    · intro v h; rw [h2] at h; cases h
  · obtain ⟨r, hr⟩ := hcases hne
    have h1 := hpeek r hr
    cases r with
    | none =>
      refine ⟨?_, ?_, ?_, ?_, ?_⟩
      · simp [config.has_path_or_null, h1, hr]
      · simp [config.has_path, h1, hr]
      · intro _; exact ⟨false, false, by simp [config.has_path, h1],
          by simp [config.has_path_or_null, h1]⟩
      · intro _; exact ⟨by simp [config.has_path, h1], by simp [config.has_path_or_null, h1]⟩
      · intro v h; rw [hr] at h; cases h
    | some w =>
      refine ⟨?_, ?_, ?_, ?_, ?_⟩
      · simp [config.has_path_or_null, h1, hr]
      · simp [config.has_path, h1, hr]
      · intro _
        exact ⟨decide (w.value_type ≠ .CONFIG_NULL), true, by simp [config.has_path, h1],
          by simp [config.has_path_or_null, h1]⟩
      · intro h; rw [hr] at h; cases h
      · intro v h hv
        rw [hr] at h
        simp only [Except.ok.injEq, Option.some.injEq] at h
        subst h
        exact ⟨by simp [config.has_path, h1, hv], by simp [config.has_path_or_null, h1]⟩

/-- C2 at `x` (an explicit null) and at `y` (never inserted) in the tree of
scenario 1. -/
theorem has_path_iff_peek_witness :
    (scenario_tree.has_path path.render path.new_path "x" = .ok false ∧
      scenario_tree.has_path_or_null path.render path.new_path "x" = .ok true) ∧
    (scenario_tree.has_path path.render path.new_path "y" = .ok false ∧
      scenario_tree.has_path_or_null path.render path.new_path "y" = .ok false) :=
  ⟨(has_path_iff_peek path.render path.new_path scenario_tree "x").2.2.2.2
      .config_null rfl rfl,
    (has_path_iff_peek path.render path.new_path scenario_tree "y").2.2.2.1 rfl⟩

/-! ## C3 -/

/-- C3, as stated, fails on scenario 1 of the specification: in the resolved
tree holding `x = null` the peek locates the Null at `x`, and `get_value("x")`
raises Null instead of returning it. -/
theorem get_value_of_null_raises :
    scenario_tree.root.to_value.resolved = true ∧
    scenario_tree.root.peek_path (path.new_path "x") = .ok (some .config_null) ∧
    scenario_tree.get_value default_transformer.transform path.render path.new_path "x"
      = .error (.thrown ⟨.null_exception, .is_null "x"⟩) :=
  ⟨rfl, rfl, rfl⟩

/-- C3, amended: for every tree and every path at which a Null-tagged value is
located, `get_value` raises Null (a `null_exception`) carrying the rendered
path; it does not return the Null-tagged value. -/
theorem get_value_raises_null_at_null
    (transform : config_value → config_value.type → config_value)
    (render : path → String) (new_path : String → path)
    (htr : no_object_coercion transform) (c : config) (path_expression : String)
    (v : config_value)
    (hv : c.root.peek_path (new_path path_expression) = .ok (some v))
    (hnull : v.value_type = .CONFIG_NULL) :
    c.get_value transform render new_path path_expression =
      .error (.thrown ⟨.null_exception, .is_null (render (new_path path_expression))⟩) := by
  have hd := descent_of_located transform render new_path htr c path_expression v v hv
    .UNSPECIFIED (Or.inl ⟨rfl, rfl⟩)
  rw [config.get_value, find_of_descent_ok transform render new_path c _ _ v hd]
  simp [hnull]

/-- The amended C3 at `x` in the tree `{x: null}`. -/
theorem get_value_raises_null_at_null_witness :
    unresolved_tree_x_null.get_value default_transformer.transform path.render
      path.new_path "x" = .error (.thrown ⟨.null_exception, .is_null "x"⟩) :=
  get_value_raises_null_at_null default_transformer.transform path.render path.new_path
    default_transform_no_object_coercion unresolved_tree_x_null "x" .config_null rfl rfl

/-! ## C4 -/

/-- C4, as stated, fails for the expected kind CONFIG_NULL: at `x = null` the
transform of the located value has the expected kind, yet `find` raises Null
instead of returning it. -/
theorem find_null_kind_raises :
    scenario_tree.root.peek_path (path.new_path "x") = .ok (some .config_null) ∧
    (default_transformer.transform .config_null .CONFIG_NULL).value_type = .CONFIG_NULL ∧
    scenario_tree.find default_transformer.transform path.render path.new_path "x"
        .CONFIG_NULL
      = .error (.thrown ⟨.null_exception, .is_null "x"⟩) :=
  ⟨rfl, rfl, rfl⟩

/-- C4, amended: in a resolved tree, for a path that locates `v` and an expected
kind `K` other than UNSPECIFIED, with `t = transform(v, K)`: `find` returns `t`
when the kind of `t` is `K` and `K` is not CONFIG_NULL, raises Null when the
kind of `t` is Null, and raises WrongType on the full path otherwise.  Every
value `find` returns has kind `K`, and no typed getter dereferences the null
pointer of a failed cast: get_object and get_list return a non-null pointer. -/
theorem find_returns_transformed_value_of_expected_kind
    (transform : config_value → config_value.type → config_value)
    (render : path → String) (new_path : String → path)
    (htr : no_object_coercion transform) (c : config)
    (hres : c.root.to_value.resolved = true) (path_expression : String)
    (v : config_value)
    (hv : c.root.peek_path (new_path path_expression) = .ok (some v))
    (K : config_value.type) (hK : K ≠ .UNSPECIFIED) :
    ((transform v K).value_type = K → K ≠ .CONFIG_NULL →
      c.find transform render new_path path_expression K = .ok (transform v K)) ∧
    ((transform v K).value_type = .CONFIG_NULL →
      c.find transform render new_path path_expression K =
        .error (.thrown ⟨.null_exception, .is_null (render (new_path path_expression))⟩)) ∧
    ((transform v K).value_type ≠ K → (transform v K).value_type ≠ .CONFIG_NULL →
      c.find transform render new_path path_expression K =
        .error (.thrown ⟨.config_exception,
          .could_not_be_converted (render (new_path path_expression))⟩)) ∧
    (∀ t, c.find transform render new_path path_expression K = .ok t → t.value_type = K) ∧
    c.get_bool transform render new_path path_expression ≠ .error .null_dereference ∧
    c.get_int transform render new_path path_expression ≠ .error .null_dereference ∧
    c.get_long transform render new_path path_expression ≠ .error .null_dereference ∧
    c.get_double transform render new_path path_expression ≠ .error .null_dereference ∧
    c.get_string transform render new_path path_expression ≠ .error .null_dereference ∧
    c.get_object transform render new_path path_expression ≠ .ok none ∧
    c.get_list transform render new_path path_expression ≠ .ok none := by
  have hne := peek_path_ne_nil _ _ _ hv
  have hnd := fun K => find_ne_null_dereference transform render new_path c path_expression
    hne K
  have hty := fun K hK t => find_ok_type transform render new_path c path_expression K hK t
  refine ⟨?_, ?_, ?_, hty K hK, ?_, ?_, ?_, ?_, ?_, ?_, ?_⟩
  · intro h1 h2
    have hd := descent_of_located transform render new_path htr c path_expression v
      (transform v K) hv K (Or.inr ⟨hK, rfl, Or.inl h1⟩)
    rw [find_of_descent_ok transform render new_path c _ _ _ hd]
    have : (transform v K).value_type ≠ .CONFIG_NULL := by rw [h1]; exact h2
    simp [this]
  · intro h1
    have hd := descent_of_located transform render new_path htr c path_expression v
      (transform v K) hv K (Or.inr ⟨hK, rfl, Or.inr h1⟩)
    rw [find_of_descent_ok transform render new_path c _ _ _ hd]
    simp [h1]
  · intro h1 h2
    exact find_wrong_type transform render new_path htr c hres path_expression v hv K hK h1 h2
  · rcases hr : c.find transform render new_path path_expression .BOOLEAN with f | t
    · have := hnd .BOOLEAN
      simp only [config.get_bool, hr]
      intro h; cases h; exact this hr
    · have := hty .BOOLEAN (by decide) t hr
      cases t <;> simp [config_value.value_type] at this
      simp [config.get_bool, hr]
  · rcases hr : c.find transform render new_path path_expression .NUMBER with f | t
    · have := hnd .NUMBER
      simp only [config.get_int, hr]
      intro h; cases h; exact this hr
    · obtain ⟨l, hl⟩ := long_value_of_number t (hty .NUMBER (by decide) t hr)
      simp only [config.get_int, hr, hl]
      exact int_value_range_checked_ne_null_dereference l path_expression
  · rcases hr : c.find transform render new_path path_expression .NUMBER with f | t
    · have := hnd .NUMBER
      simp only [config.get_long, hr]
      intro h; cases h; exact this hr
    · obtain ⟨l, hl⟩ := long_value_of_number t (hty .NUMBER (by decide) t hr)
      simp [config.get_long, hr, hl]
  · rcases hr : c.find transform render new_path path_expression .NUMBER with f | t
    · have := hnd .NUMBER
      simp only [config.get_double, hr]
      intro h; cases h; exact this hr
    · obtain ⟨d, hd⟩ := double_value_of_number t (hty .NUMBER (by decide) t hr)
      simp [config.get_double, hr, hd]
  · rcases hr : c.find transform render new_path path_expression .STRING with f | t
    · have := hnd .STRING
      simp only [config.get_string, hr]
      intro h; cases h; exact this hr
    · have := hty .STRING (by decide) t hr
      cases t <;> simp [config_value.value_type] at this
      simp [config.get_string, hr]
  · rcases hr : c.find transform render new_path path_expression .OBJECT with f | t
    · simp [config.get_object, hr]
    · have := hty .OBJECT (by decide) t hr
      cases t <;> simp [config_value.value_type] at this
      simp [config.get_object, hr, dynamic_pointer_cast_config_object]
  · rcases hr : c.find transform render new_path path_expression .LIST with f | t
    · simp [config.get_list, hr]
    · have := hty .LIST (by decide) t hr
      cases t <;> simp [config_value.value_type] at this
      simp [config.get_list, hr, dynamic_pointer_cast_config_list]

/-- The amended C4 at `a.b.c` in the tree of scenario 1, for the expected kind
NUMBER: `find` returns the number located there. -/
theorem find_returns_transformed_value_of_expected_kind_witness :
    scenario_tree.find default_transformer.transform path.render path.new_path "a.b.c"
      .NUMBER = .ok (.config_int 1) :=
  (find_returns_transformed_value_of_expected_kind default_transformer.transform
    path.render path.new_path default_transform_no_object_coercion scenario_tree rfl
    "a.b.c" (.config_int 1) rfl .NUMBER (by decide)).1 rfl (by decide)

/-! ## C5 -/

/-- C5, as stated, fails on scenario 2 of the specification once the transform
step performs the numeric-to-string coercion the specification gives it: in the
tree of scenario 1 a Number is located at `a.b.c`, and `get_string("a.b.c")`
returns its text instead of raising WrongType. -/
theorem get_string_of_number_returns_text :
    scenario_tree.root.to_value.resolved = true ∧
    scenario_tree.root.peek_path (path.new_path "a.b.c") = .ok (some (.config_int 1)) ∧
    scenario_tree.get_string default_transformer.transform path.render path.new_path
      "a.b.c" = .ok "1" :=
  ⟨rfl, rfl, rfl⟩

/-- C5, amended: for every path at which a Number is located, `get_string`
under the numeric-to-string coercion of the transform step returns the text of
the String the Number is coerced into; and in a resolved tree, under any
transform step, it raises WrongType on the full path when the transform of the
located Number is neither a String nor Null. -/
theorem get_string_of_number
    (render : path → String) (new_path : String → path) (c : config)
    (path_expression : String) (v : config_value)
    (hv : c.root.peek_path (new_path path_expression) = .ok (some v))
    (hnum : v.value_type = .NUMBER) :
    (∃ s, default_transformer.transform v .STRING = .config_string s .QUOTED ∧
      c.get_string default_transformer.transform render new_path path_expression = .ok s) ∧
    (∀ transform : config_value → config_value.type → config_value,
      no_object_coercion transform → c.root.to_value.resolved = true →
      (transform v .STRING).value_type ≠ .STRING →
      (transform v .STRING).value_type ≠ .CONFIG_NULL →
      c.get_string transform render new_path path_expression =
        .error (.thrown ⟨.config_exception,
          .could_not_be_converted (render (new_path path_expression))⟩)) := by
  constructor
  · have key : ∀ s, default_transformer.transform v .STRING = .config_string s .QUOTED →
        c.get_string default_transformer.transform render new_path path_expression
          = .ok s := by
      intro s hs
      have hd := descent_of_located default_transformer.transform render new_path
        default_transform_no_object_coercion c path_expression v
        (default_transformer.transform v .STRING) hv .STRING
        (Or.inr ⟨by decide, rfl, Or.inl (by rw [hs]; rfl)⟩)
      rw [config.get_string, find_of_descent_ok _ render new_path c _ _ _ hd, hs]
      simp [config_value.value_type]
    cases v <;> simp [config_value.value_type] at hnum
    · exact ⟨_, rfl, key _ rfl⟩
    · exact ⟨_, rfl, key _ rfl⟩
    · exact ⟨_, rfl, key _ rfl⟩
  · intro transform htr hres h1 h2
    rw [config.get_string, find_wrong_type transform render new_path htr c hres
      path_expression v hv .STRING (by decide) h1 h2]

/-- The amended C5 at `a.b.c` in the tree of scenario 1: the Number 1 is coerced
into the String "1", which `get_string` returns. -/
theorem get_string_of_number_witness :
    ∃ s, default_transformer.transform (.config_int 1) .STRING = .config_string s .QUOTED ∧
      scenario_tree.get_string default_transformer.transform path.render path.new_path
        "a.b.c" = .ok s :=
  (get_string_of_number path.render path.new_path scenario_tree "a.b.c" (.config_int 1)
    rfl rfl).1

/-! ## C6 -/

/-- C6: in a resolved tree, when a proper part `pre` of the path (the path is
`pre ++ post` with `post` non-empty) locates a value that is neither an Object
nor Null, every typed getter called with the full path raises WrongType (the
"could not be converted" message, thrown again by value), and the path it
carries is the rendering of `pre`, the part consumed up to that value. -/
theorem getters_raise_wrong_type_through_non_object
    (transform : config_value → config_value.type → config_value)
    (render : path → String) (new_path : String → path)
    (htr : no_object_coercion transform) (c : config)
    (hres : c.root.to_value.resolved = true) (path_expression : String)
    (pre post : path) (hp : new_path path_expression = pre ++ post) (hpost : post ≠ [])
    (v : config_value) (hv : c.root.peek_path pre = .ok (some v))
    (hobj : v.value_type ≠ .OBJECT) (hnull : v.value_type ≠ .CONFIG_NULL) :
    c.every_getter_fails_with transform render new_path path_expression
      (.thrown ⟨.config_exception, .could_not_be_converted (render pre)⟩) ∧
    (⟨.config_exception, .could_not_be_converted (render pre)⟩ : config_exception).kind
      = .WrongType ∧
    2 ≤ (new_path path_expression).length := by
  refine ⟨every_getter_fails_of_find transform render new_path c path_expression _ ?_, rfl, ?_⟩
  · intro expected
    have h := find_through_non_object transform render new_path htr c hres path_expression
      pre post hp hpost v hv hobj expected
    simpa [hnull] using h
  · have h1 := peek_path_ne_nil _ _ _ hv
    rw [hp, List.length_append]
    have := List.length_pos.2 h1
    have := List.length_pos.2 hpost
    omega

/-- C6 on scenario 3 of the specification: in `{a: {b: 5}}` every getter called
with `a.b.c` raises WrongType on `a.b`. -/
theorem getters_raise_wrong_type_through_non_object_witness :
    scenario_tree_a_b_5.every_getter_fails_with default_transformer.transform path.render
      path.new_path "a.b.c" (.thrown ⟨.config_exception, .could_not_be_converted "a.b"⟩) ∧
    (⟨.config_exception, .could_not_be_converted "a.b"⟩ : config_exception).kind
      = .WrongType ∧
    2 ≤ (path.new_path "a.b.c").length :=
  getters_raise_wrong_type_through_non_object default_transformer.transform path.render
    path.new_path default_transform_no_object_coercion scenario_tree_a_b_5 rfl "a.b.c"
    ["a", "b"] ["c"] rfl (by decide) (.config_int 5) rfl (by decide) (by decide)

/-! ## C7 -/

/-- C7, as stated, fails on the tree `{x: null}` whose root is UNRESOLVED:
`get_value("x")` descends successfully and then raises Null, not NotResolved. -/
theorem unresolved_getter_raises_null :
    unresolved_tree_x_null.root.get_resolve_status ≠ .RESOLVED ∧
    unresolved_tree_x_null.get_value default_transformer.transform path.render
      path.new_path "x" = .error (.thrown ⟨.null_exception, .is_null "x"⟩) ∧
    (⟨.null_exception, .is_null "x"⟩ : config_exception).kind = .Null :=
  ⟨by decide, rfl, rfl⟩

/-- C7, amended: on a tree whose root resolve-status is not RESOLVED, whenever a
typed getter fails on a non-empty path it raises an exception whose kind is
NotResolved, Null or NumericOverflow, so never Missing or WrongType; a failure
of `find` itself is the NotResolved exception on the rendered path or the Null
exception raised by the check that follows the descent. -/
theorem unresolved_getter_failures
    (transform : config_value → config_value.type → config_value)
    (render : path → String) (new_path : String → path) (c : config)
    (hst : c.root.get_resolve_status ≠ .RESOLVED)
    (path_expression : String) (hne : new_path path_expression ≠ []) :
    c.every_getter_failure transform render new_path path_expression unresolved_failure ∧
    (∀ f, unresolved_failure f →
      ∀ ex, f = .thrown ex → ex.kind ≠ .Missing ∧ ex.kind ≠ .WrongType) ∧
    (∀ expected f, c.find transform render new_path path_expression expected = .error f →
      f = .thrown ⟨.config_exception,
          .has_not_been_resolved (render (new_path path_expression))⟩ ∨
      f = .thrown ⟨.null_exception, .is_null (render (new_path path_expression))⟩) := by
  have hfind := fun K f => unresolved_failure_of_find transform render new_path c hst
    path_expression hne K f
  have hty := fun K hK t => find_ok_type transform render new_path c path_expression K hK t
  refine ⟨⟨?_, ?_, ?_, ?_, ?_, ?_, ?_, ?_⟩, ?_, ?_⟩
  · intro f h
    exact hfind .UNSPECIFIED f h
  · intro f h
    rcases hr : c.find transform render new_path path_expression .BOOLEAN with f2 | t
    · simp only [config.get_bool, hr, Except.error.injEq] at h
      subst h; exact hfind _ _ hr
    · have := hty .BOOLEAN (by decide) t hr
      cases t <;> simp [config_value.value_type] at this
      simp [config.get_bool, hr] at h
  · intro f h
    rcases hr : c.find transform render new_path path_expression .NUMBER with f2 | t
    · simp only [config.get_int, hr, Except.error.injEq] at h
      subst h; exact hfind _ _ hr
    · obtain ⟨l, hl⟩ := long_value_of_number t (hty .NUMBER (by decide) t hr)
      simp only [config.get_int, hr, hl, int_value_range_checked, throw_exception] at h
      split at h
      · cases h
      · simp only [Except.error.injEq] at h
        subst h
        exact ⟨_, rfl, Or.inr (Or.inr rfl)⟩
  · intro f h
    rcases hr : c.find transform render new_path path_expression .NUMBER with f2 | t
    · simp only [config.get_long, hr, Except.error.injEq] at h
      subst h; exact hfind _ _ hr
    · obtain ⟨l, hl⟩ := long_value_of_number t (hty .NUMBER (by decide) t hr)
      simp [config.get_long, hr, hl] at h
  · intro f h
    rcases hr : c.find transform render new_path path_expression .NUMBER with f2 | t
    · simp only [config.get_double, hr, Except.error.injEq] at h
      subst h; exact hfind _ _ hr
    · obtain ⟨d, hd⟩ := double_value_of_number t (hty .NUMBER (by decide) t hr)
      simp [config.get_double, hr, hd] at h
  · intro f h
    rcases hr : c.find transform render new_path path_expression .STRING with f2 | t
    · simp only [config.get_string, hr, Except.error.injEq] at h
      subst h; exact hfind _ _ hr
    · have := hty .STRING (by decide) t hr
      cases t <;> simp [config_value.value_type] at this
      simp [config.get_string, hr] at h
  · intro f h
    rcases hr : c.find transform render new_path path_expression .OBJECT with f2 | t
    · simp only [config.get_object, hr, Except.error.injEq] at h
      subst h; exact hfind _ _ hr
    · simp [config.get_object, hr] at h
  · intro f h
    rcases hr : c.find transform render new_path path_expression .LIST with f2 | t
    · simp only [config.get_list, hr, Except.error.injEq] at h
      subst h; exact hfind _ _ hr
    · simp [config.get_list, hr] at h
  · rintro f ⟨ex, hf, hk⟩ ex2 hf2
    rw [hf] at hf2
    simp only [failure.thrown.injEq] at hf2
    subst hf2
    rcases hk with hk | hk | hk <;> rw [hk] <;> exact ⟨by decide, by decide⟩
  · intro expected f h
    exact find_unresolved_failure transform render new_path c hst path_expression hne
      expected f h

/-- The amended C7 on scenario 4 of the specification: on `{a: 1}` marked
UNRESOLVED every failure of a getter called with `missing.path` is of kind
NotResolved, Null or NumericOverflow. -/
theorem unresolved_getter_failures_witness :
    unresolved_tree_a_1.every_getter_failure default_transformer.transform path.render
      path.new_path "missing.path" unresolved_failure :=
  (unresolved_getter_failures default_transformer.transform path.render path.new_path
    unresolved_tree_a_1 (by decide) "missing.path" (by decide)).1

/-! ## C8 -/

/-- C8, as stated, fails on the tree `{a: 1}` whose root is UNRESOLVED:
`get_int("a")` returns 1 instead of raising NotResolved. -/
theorem unresolved_getter_returns :
    unresolved_tree_a_1.root.get_resolve_status = .UNRESOLVED ∧
    unresolved_tree_a_1.get_int default_transformer.transform path.render path.new_path
      "a" = .ok 1 :=
  ⟨rfl, rfl⟩

/-- C8, amended: on a tree whose root resolve-status is UNRESOLVED, each typed
getter called with a non-empty path raises NotResolved (the "has not been
resolved" exception on the rendered path) exactly when its descent does not
succeed, that is when the peek locates no value at the path or the located
value fails the kind check of the getter; on a path on which the descent
succeeds no getter raises NotResolved. -/
theorem unresolved_getters_raise_not_resolved_iff
    (transform : config_value → config_value.type → config_value)
    (render : path → String) (new_path : String → path)
    (htr : no_object_coercion transform) (c : config)
    (hst : c.root.get_resolve_status = .UNRESOLVED)
    (path_expression : String) (hne : new_path path_expression ≠ []) :
    (c.get_value transform render new_path path_expression =
        .error (.thrown ⟨.config_exception,
          .has_not_been_resolved (render (new_path path_expression))⟩) ↔
      ¬ c.descent_succeeds transform (new_path path_expression) .UNSPECIFIED) ∧
    (c.get_bool transform render new_path path_expression =
        .error (.thrown ⟨.config_exception,
          .has_not_been_resolved (render (new_path path_expression))⟩) ↔
      ¬ c.descent_succeeds transform (new_path path_expression) .BOOLEAN) ∧
    (c.get_int transform render new_path path_expression =
        .error (.thrown ⟨.config_exception,
          .has_not_been_resolved (render (new_path path_expression))⟩) ↔
      ¬ c.descent_succeeds transform (new_path path_expression) .NUMBER) ∧
    (c.get_long transform render new_path path_expression =
        .error (.thrown ⟨.config_exception,
          .has_not_been_resolved (render (new_path path_expression))⟩) ↔
      ¬ c.descent_succeeds transform (new_path path_expression) .NUMBER) ∧
    (c.get_double transform render new_path path_expression =
        .error (.thrown ⟨.config_exception,
          .has_not_been_resolved (render (new_path path_expression))⟩) ↔
      ¬ c.descent_succeeds transform (new_path path_expression) .NUMBER) ∧
    (c.get_string transform render new_path path_expression =
        .error (.thrown ⟨.config_exception,
          .has_not_been_resolved (render (new_path path_expression))⟩) ↔
      ¬ c.descent_succeeds transform (new_path path_expression) .STRING) ∧
    (c.get_object transform render new_path path_expression =
        .error (.thrown ⟨.config_exception,
          .has_not_been_resolved (render (new_path path_expression))⟩) ↔
      ¬ c.descent_succeeds transform (new_path path_expression) .OBJECT) ∧
    (c.get_list transform render new_path path_expression =
        .error (.thrown ⟨.config_exception,
          .has_not_been_resolved (render (new_path path_expression))⟩) ↔
      ¬ c.descent_succeeds transform (new_path path_expression) .LIST) := by
  have hst2 : c.root.get_resolve_status ≠ .RESOLVED := by rw [hst]; decide
  have hiff := fun K => find_unresolved_iff transform render new_path htr c hst2
    path_expression hne K
  refine ⟨hiff .UNSPECIFIED, ?_, ?_, ?_, ?_, ?_, ?_, ?_⟩
  · rw [← hiff .BOOLEAN]
    rcases hr : c.find transform render new_path path_expression .BOOLEAN with f | t
    · simp [config.get_bool, hr]
    · cases t <;> simp [config.get_bool, hr]
  · rw [← hiff .NUMBER]
    rcases hr : c.find transform render new_path path_expression .NUMBER with f | t
    · simp [config.get_int, hr]
    · simp only [config.get_int, hr, reduceCtorEq, iff_false]
      cases t.long_value with
      | none => simp
      | some l =>
        simp only [int_value_range_checked, throw_exception]
        split <;> simp
  · rw [← hiff .NUMBER]
    rcases hr : c.find transform render new_path path_expression .NUMBER with f | t
    · simp [config.get_long, hr]
    · simp only [config.get_long, hr, reduceCtorEq, iff_false]
      cases t.long_value <;> simp
  · rw [← hiff .NUMBER]
    rcases hr : c.find transform render new_path path_expression .NUMBER with f | t
    · simp [config.get_double, hr]
    · simp only [config.get_double, hr, reduceCtorEq, iff_false]
      cases t.double_value <;> simp
  · rw [← hiff .STRING]
    rcases hr : c.find transform render new_path path_expression .STRING with f | t
    · simp [config.get_string, hr]
    · cases t <;> simp [config.get_string, hr]
  · rw [← hiff .OBJECT]
    rcases hr : c.find transform render new_path path_expression .OBJECT with f | t
    · simp [config.get_object, hr]
    · simp [config.get_object, hr]
  · rw [← hiff .LIST]
    rcases hr : c.find transform render new_path path_expression .LIST with f | t
    · simp [config.get_list, hr]
    · simp [config.get_list, hr]

/-- The amended C8 on scenario 4 of the specification: on `{a: 1}` marked
UNRESOLVED, `get_int("missing.path")` raises NotResolved on `missing.path`. -/
theorem unresolved_getters_raise_not_resolved_iff_witness :
    unresolved_tree_a_1.get_int default_transformer.transform path.render path.new_path
        "missing.path"
      = .error (.thrown ⟨.config_exception, .has_not_been_resolved "missing.path"⟩) :=
  (unresolved_getters_raise_not_resolved_iff default_transformer.transform path.render
    path.new_path default_transform_no_object_coercion unresolved_tree_a_1 rfl
    "missing.path" (by decide)).2.2.1.2
    (by
      rintro ⟨v, t, hv, _⟩
      have hnone : unresolved_tree_a_1.root.peek_path (path.new_path "missing.path")
          = .ok none := rfl
      rw [hnone] at hv
      cases hv)

/-! ## C10 -/

/-- The loop of `get_long_list` over a list of integer leaves appends their
values, in order, to the vector filled so far. -/
theorem get_long_list_loop_of_integers (items : List config_value) (long_list : List Int)
    (hint : ∀ x ∈ items, ∃ n, holds_integer x n) :
    ∃ ns, config.get_long_list_loop (config_value.unwrapped_items items) long_list
        = .ok (long_list ++ ns) ∧ List.Forall₂ holds_integer items ns := by
  induction items generalizing long_list with
  | nil => exact ⟨[], by simp [config_value.unwrapped_items, config.get_long_list_loop], .nil⟩
  | cons x rest ih =>
    obtain ⟨n, hn⟩ := hint x (List.mem_cons_self _ _)
    obtain ⟨ns, hns, hall⟩ := ih (long_list ++ [n])
      (fun y hy => hint y (List.mem_cons_of_mem _ hy))
    refine ⟨n :: ns, ?_, .cons hn hall⟩
    rcases hn with rfl | rfl
    · simp only [config_value.unwrapped_items, config_value.unwrapped,
        config.get_long_list_loop, boost_get_int64, boost_get_int]
      rw [hns]; simp
    · simp only [config_value.unwrapped_items, config_value.unwrapped,
        config.get_long_list_loop, boost_get_int64]
      rw [hns]; simp

/-- C10: for every path that locates a List whose every element is an integer
leaf (a 32-bit int or a 64-bit integer), `get_long_list` returns a sequence of
the same length whose i-th entry is the number the i-th element holds. -/
theorem get_long_list_of_integer_list
    (transform : config_value → config_value.type → config_value)
    (render : path → String) (new_path : String → path)
    (htr : no_object_coercion transform) (hkl : keeps_lists transform) (c : config)
    (path_expression : String) (items : List config_value)
    (hv : c.root.peek_path (new_path path_expression) = .ok (some (.config_list items)))
    (hint : ∀ x ∈ items, ∃ n, holds_integer x n) :
    ∃ ns, c.get_long_list transform render new_path path_expression = .ok ns ∧
      ns.length = items.length ∧ List.Forall₂ holds_integer items ns := by
  have hd := descent_of_located transform render new_path htr c path_expression
    (.config_list items) (.config_list items) hv .LIST
    (Or.inr ⟨by decide, (hkl items).symm, Or.inl rfl⟩)
  have hf := find_of_descent_ok transform render new_path c _ _ _ hd
  simp only [config_value.value_type, reduceCtorEq, if_false] at hf
  obtain ⟨ns, hns, hall⟩ := get_long_list_loop_of_integers items [] hint
  refine ⟨ns, ?_, hall.length_eq.symm, hall⟩
  simp only [config.get_long_list, config.get_homogeneous_unwrapped_list_int64,
    config.get_list, hf, dynamic_pointer_cast_config_list, hns, List.nil_append]

/-- C10 on the tree `{list: [1, 5000000000, -3]}`. -/
theorem get_long_list_of_integer_list_witness :
    ∃ ns, long_list_tree.get_long_list default_transformer.transform path.render
        path.new_path "list" = .ok ns ∧
      ns.length = [config_value.config_int 1, .config_long 5000000000,
        .config_int (-3)].length ∧
      List.Forall₂ holds_integer
        [.config_int 1, .config_long 5000000000, .config_int (-3)] ns :=
  get_long_list_of_integer_list default_transformer.transform path.render path.new_path
    default_transform_no_object_coercion default_transform_keeps_lists long_list_tree "list"
    [.config_int 1, .config_long 5000000000, .config_int (-3)] rfl
    (by
      intro x hx
      simp only [List.mem_cons, List.mem_singleton, List.not_mem_nil, or_false] at hx
      rcases hx with rfl | rfl | rfl
      · exact ⟨1, Or.inl rfl⟩
      · exact ⟨5000000000, Or.inr rfl⟩
      · exact ⟨-3, Or.inl rfl⟩)

/-! ## C9 -/

theorem find_paths_new_path (parent : path) (elem : String) :
    (if parent.isEmpty then path.new_key elem else (path.new_key elem).prepend parent)
      = parent ++ [elem] := by
  cases parent <;> simp [path.new_key, path.prepend]

mutual
/-- The loop of `find_paths` inserts the rendered leaves below the entries,
in order, after the pairs inserted so far. -/
theorem find_paths_loop_eq (render : path → String) :
    ∀ (parent : path) (es entries : List (String × config_value)),
      config.find_paths_loop render parent es entries =
        entries ++ (leaves_loop parent es).map (fun kv => (render kv.1, kv.2))
  | _, [], entries => by simp [config.find_paths_loop, leaves_loop]
  | parent, (elem, v) :: rest, entries => by
    rw [config.find_paths_loop, find_paths_new_path,
      find_paths_loop_eq render parent rest, find_paths_entry_eq render (parent ++ [elem]) v]
    simp [leaves_loop]
theorem find_paths_entry_eq (render : path → String) :
    ∀ (p : path) (v : config_value) (entries : List (String × config_value)),
      config.find_paths_entry render p v entries =
        entries ++ (leaves_entry p v).map (fun kv => (render kv.1, kv.2))
  | p, .simple_config_object _ object, entries => by
    rw [config.find_paths_entry, find_paths_loop_eq render p object]
    simp [leaves_entry]
  | _, .config_null, entries => by simp [config.find_paths_entry, leaves_entry]
  | _, .config_boolean _, entries => by simp [config.find_paths_entry, leaves_entry]
  | _, .config_int _, entries => by simp [config.find_paths_entry, leaves_entry]
  | _, .config_long _, entries => by simp [config.find_paths_entry, leaves_entry]
  | _, .config_double _, entries => by simp [config.find_paths_entry, leaves_entry]
  | _, .config_string _ _, entries => by simp [config.find_paths_entry, leaves_entry]
  | _, .config_list _, entries => by simp [config.find_paths_entry, leaves_entry]
end

theorem peek_path_eq_peek_below (self : config_object) (key : String) (next : path) :
    self.peek_path (key :: next) =
      match self.value.lookup key with
      | none => .ok none
      | some w => w.peek_below next := by
  cases next with
  | nil =>
    simp only [config_object.peek_path]
    cases self.value.lookup key <;> rfl
  | cons k rest =>
    rw [peek_path_cons self key (k :: rest) (by simp)]
    cases self.value.lookup key with
    | none => rfl
    | some w => cases w <;> rfl

theorem peek_path_entries_cons (st : resolve_status) (k : String) (w : config_value)
    (rest : List (String × config_value)) (key : String) (next : path) :
    (⟨st, (k, w) :: rest⟩ : config_object).peek_path (key :: next) =
      if key = k then w.peek_below next
      else (⟨st, rest⟩ : config_object).peek_path (key :: next) := by
  rw [peek_path_eq_peek_below, peek_path_eq_peek_below]
  simp only [List.lookup_cons]
  by_cases h : key = k
  · simp [h]
  · have : (key == k) = false := by simpa using h
    simp [h, this]

theorem peek_path_absent_key (st : resolve_status) (rest : List (String × config_value))
    (key : String) (next : path) (h : rest.lookup key = none) :
    (⟨st, rest⟩ : config_object).peek_path (key :: next) = .ok none := by
  rw [peek_path_eq_peek_below]
  simp [h]

theorem peek_below_object (st : resolve_status) (es : List (String × config_value))
    (suffix : path) (v : config_value) :
    ((config_value.simple_config_object st es).peek_below suffix = .ok (some v) ∧ v.is_leaf) ↔
      ((⟨st, es⟩ : config_object).peek_path suffix = .ok (some v) ∧ v.is_leaf) := by
  cases suffix with
  | nil =>
    simp only [config_value.peek_below, config_object.peek_path, Except.ok.injEq,
      Option.some.injEq, reduceCtorEq, false_and, iff_false, not_and]
    rintro rfl h
    exact h.1 rfl
  | cons key next => simp [config_value.peek_below, dynamic_pointer_cast_config_object]

theorem peek_below_leaf (w : config_value) (hw : w.is_leaf) (suffix : path)
    (v : config_value) :
    w.peek_below suffix = .ok (some v) ↔ suffix = [] ∧ v = w := by
  cases suffix with
  | nil => simp [config_value.peek_below, eq_comm]
  | cons key next =>
    have := (cast_object_eq_none w).2 hw.1
    simp [config_value.peek_below, this]

mutual
/-- The leaves below the entries of an Object with unique keys are the values
the peek locates from that Object that are neither Objects nor Null. -/
theorem mem_leaves_loop :
    ∀ (parent : path) (es : List (String × config_value)),
      config_value.unique_keys_entries es = true →
      ∀ (st : resolve_status) (ks : path) (v : config_value),
      ((ks, v) ∈ leaves_loop parent es ↔
        ∃ suffix, ks = parent ++ suffix ∧
          (⟨st, es⟩ : config_object).peek_path suffix = .ok (some v) ∧ v.is_leaf)
  | parent, [], _, st, ks, v => by
    simp only [leaves_loop, List.not_mem_nil, false_iff, not_exists, not_and]
    intro suffix _ h
    cases suffix with
    | nil => simp [config_object.peek_path] at h
    | cons key next => rw [peek_path_absent_key st [] key next rfl] at h; cases h
  | parent, (k, w) :: rest, hu, st, ks, v => by
    simp only [config_value.unique_keys_entries, Bool.and_eq_true, Option.isNone_iff_eq_none]
      at hu
    obtain ⟨⟨hk, hw⟩, hrest⟩ := hu
    rw [leaves_loop, List.mem_append, mem_leaves_entry (parent ++ [k]) w hw ks v,
      mem_leaves_loop parent rest hrest st ks v]
    constructor
    · rintro (⟨s1, rfl, h1, hl⟩ | ⟨s2, rfl, h2, hl⟩)
      · refine ⟨k :: s1, by simp, ?_, hl⟩
        rw [peek_path_entries_cons]; simp [h1]
      · cases s2 with
        | nil => simp [config_object.peek_path] at h2
        | cons key next =>
          refine ⟨key :: next, rfl, ?_, hl⟩
          rw [peek_path_entries_cons]
          have hne : key ≠ k := by
            rintro rfl
            rw [peek_path_absent_key st rest key next hk] at h2
            cases h2
          simp [hne, h2]
    · rintro ⟨suffix, rfl, h, hl⟩
      cases suffix with
      | nil => simp [config_object.peek_path] at h
      | cons key next =>
        rw [peek_path_entries_cons] at h
        by_cases hkey : key = k
        · subst hkey
          simp only [if_true] at h
          exact Or.inl ⟨next, by simp, h, hl⟩
        · simp only [hkey, if_false] at h
          exact Or.inr ⟨key :: next, rfl, h, hl⟩
/-- The leaves at or below a value with unique keys, found at path `p`. -/
theorem mem_leaves_entry :
    ∀ (p : path) (w : config_value), config_value.unique_keys w = true →
      ∀ (ks : path) (v : config_value),
      ((ks, v) ∈ leaves_entry p w ↔
        ∃ suffix, ks = p ++ suffix ∧ w.peek_below suffix = .ok (some v) ∧ v.is_leaf)
  | p, .simple_config_object st2 es, hu, ks, v => by
    simp only [config_value.unique_keys] at hu
    rw [leaves_entry, mem_leaves_loop p es hu st2 ks v]
    constructor
    · rintro ⟨suffix, h1, h2⟩
      exact ⟨suffix, h1, (peek_below_object st2 es suffix v).2 h2⟩
    · rintro ⟨suffix, h1, h2⟩
      exact ⟨suffix, h1, (peek_below_object st2 es suffix v).1 h2⟩
  | p, .config_null, _, ks, v => by
    simp only [leaves_entry, List.not_mem_nil, false_iff, not_exists, not_and]
    intro suffix _ h hl
    cases suffix with
    | nil =>
      simp only [config_value.peek_below, Except.ok.injEq, Option.some.injEq] at h
      subst h
      exact hl.2 rfl
    | cons key next => simp [config_value.peek_below, dynamic_pointer_cast_config_object] at h
  | p, .config_boolean b, _, ks, v => by
    have hw : (config_value.config_boolean b).is_leaf :=
      ⟨by simp [config_value.value_type], by simp [config_value.value_type]⟩
    simp only [leaves_entry, List.mem_singleton, Prod.mk.injEq, peek_below_leaf _ hw]
    constructor
    · rintro ⟨rfl, rfl⟩; exact ⟨[], by simp, ⟨rfl, rfl⟩, hw⟩
    · rintro ⟨suffix, rfl, ⟨rfl, rfl⟩, _⟩; simp
  | p, .config_int n, _, ks, v => by
    have hw : (config_value.config_int n).is_leaf :=
      ⟨by simp [config_value.value_type], by simp [config_value.value_type]⟩
    simp only [leaves_entry, List.mem_singleton, Prod.mk.injEq, peek_below_leaf _ hw]
    constructor
    · rintro ⟨rfl, rfl⟩; exact ⟨[], by simp, ⟨rfl, rfl⟩, hw⟩
    · rintro ⟨suffix, rfl, ⟨rfl, rfl⟩, _⟩; simp
  | p, .config_long n, _, ks, v => by
    have hw : (config_value.config_long n).is_leaf :=
      ⟨by simp [config_value.value_type], by simp [config_value.value_type]⟩
    simp only [leaves_entry, List.mem_singleton, Prod.mk.injEq, peek_below_leaf _ hw]
    constructor
    · rintro ⟨rfl, rfl⟩; exact ⟨[], by simp, ⟨rfl, rfl⟩, hw⟩
    · rintro ⟨suffix, rfl, ⟨rfl, rfl⟩, _⟩; simp
  | p, .config_double d, _, ks, v => by
    have hw : (config_value.config_double d).is_leaf :=
      ⟨by simp [config_value.value_type], by simp [config_value.value_type]⟩
    simp only [leaves_entry, List.mem_singleton, Prod.mk.injEq, peek_below_leaf _ hw]
    constructor
    · rintro ⟨rfl, rfl⟩; exact ⟨[], by simp, ⟨rfl, rfl⟩, hw⟩
    · rintro ⟨suffix, rfl, ⟨rfl, rfl⟩, _⟩; simp
  | p, .config_string s q, _, ks, v => by
    have hw : (config_value.config_string s q).is_leaf :=
      ⟨by simp [config_value.value_type], by simp [config_value.value_type]⟩
    simp only [leaves_entry, List.mem_singleton, Prod.mk.injEq, peek_below_leaf _ hw]
    constructor
    · rintro ⟨rfl, rfl⟩; exact ⟨[], by simp, ⟨rfl, rfl⟩, hw⟩
    · rintro ⟨suffix, rfl, ⟨rfl, rfl⟩, _⟩; simp
  | p, .config_list items, _, ks, v => by
    have hw : (config_value.config_list items).is_leaf :=
      ⟨by simp [config_value.value_type], by simp [config_value.value_type]⟩
    simp only [leaves_entry, List.mem_singleton, Prod.mk.injEq, peek_below_leaf _ hw]
    constructor
    · rintro ⟨rfl, rfl⟩; exact ⟨[], by simp, ⟨rfl, rfl⟩, hw⟩
    · rintro ⟨suffix, rfl, ⟨rfl, rfl⟩, _⟩; simp
end

mutual
/-- No key sequence occurs twice among the leaves below the entries of an
Object with unique keys. -/
theorem nodup_leaves_loop :
    ∀ (parent : path) (es : List (String × config_value)),
      config_value.unique_keys_entries es = true →
      ((leaves_loop parent es).map Prod.fst).Nodup
  | _, [], _ => by simp [leaves_loop]
  | parent, (k, w) :: rest, hu => by
    have hu2 := hu
    simp only [config_value.unique_keys_entries, Bool.and_eq_true, Option.isNone_iff_eq_none]
      at hu2
    obtain ⟨⟨hk, hw⟩, hrest⟩ := hu2
    rw [leaves_loop, List.map_append, List.nodup_append]
    refine ⟨nodup_leaves_entry (parent ++ [k]) w hw, nodup_leaves_loop parent rest hrest, ?_⟩
    intro ks h1 h2
    obtain ⟨⟨ks1, v1⟩, hm1, rfl⟩ := List.mem_map.1 h1
    obtain ⟨⟨ks2, v2⟩, hm2, heq⟩ := List.mem_map.1 h2
    simp only at heq
    subst heq
    obtain ⟨s1, hs1, _, _⟩ := (mem_leaves_entry (parent ++ [k]) w hw _ v1).1 hm1
    obtain ⟨s2, hs2, hp2, _⟩ := (mem_leaves_loop parent rest hrest .RESOLVED _ v2).1 hm2
    cases s2 with
    | nil => simp [config_object.peek_path] at hp2
    | cons key next =>
      have hkey : k = key := by
        have := hs1.symm.trans hs2
        simp only [List.append_assoc, List.singleton_append, List.append_cancel_left_eq,
          List.cons.injEq] at this
        exact this.1
      subst hkey
      rw [peek_path_absent_key .RESOLVED rest k next hk] at hp2
      cases hp2
/-- No key sequence occurs twice among the leaves at or below a value with
unique keys. -/
theorem nodup_leaves_entry :
    ∀ (p : path) (w : config_value), config_value.unique_keys w = true →
      ((leaves_entry p w).map Prod.fst).Nodup
  | p, .simple_config_object _ es, hu => by
    simp only [config_value.unique_keys] at hu
    rw [leaves_entry]
    exact nodup_leaves_loop p es hu
  | _, .config_null, _ => by simp [leaves_entry]
  | _, .config_boolean _, _ => by simp [leaves_entry]
  | _, .config_int _, _ => by simp [leaves_entry]
  | _, .config_long _, _ => by simp [leaves_entry]
  | _, .config_double _, _ => by simp [leaves_entry]
  | _, .config_string _ _, _ => by simp [leaves_entry]
  | _, .config_list _, _ => by simp [leaves_entry]
end

/-- C9: for every tree whose Objects have unique keys, `entry_set()` is the
rendering of an enumeration `leaves` of the leaves of the tree in which no key
sequence occurs twice: each pair of `leaves` is a key sequence with the value
the peek locates at it, that value being neither an Object nor Null, every
such key sequence is in `leaves`, and the entries are the pairs (rendered key
sequence, value), one per leaf.  So no entry is Null-tagged, every other leaf
appears exactly once, and nothing else appears. -/
theorem entry_set_is_the_rendered_leaves (render : path → String) (c : config)
    (hu : c.root.to_value.unique_keys = true) :
    ∃ leaves : List (path × config_value),
      c.entry_set render = leaves.map (fun kv => (render kv.1, kv.2)) ∧
      (leaves.map Prod.fst).Nodup ∧
      (∀ ks v, (ks, v) ∈ leaves ↔
        (c.root.peek_path ks = .ok (some v) ∧
          v.value_type ≠ .OBJECT ∧ v.value_type ≠ .CONFIG_NULL)) ∧
      (∀ s v, (s, v) ∈ c.entry_set render →
        v.value_type ≠ .CONFIG_NULL ∧ v.value_type ≠ .OBJECT) := by
  have hu2 : config_value.unique_keys_entries c._object.value = true := by
    simpa [config.root, config_object.to_value, config_value.unique_keys] using hu
  have heq : c.entry_set render
      = (leaves_loop [] c._object.value).map (fun kv => (render kv.1, kv.2)) := by
    simp [config.entry_set, config.find_paths, config_object.entry_set, find_paths_loop_eq]
  have hmem : ∀ ks v, (ks, v) ∈ leaves_loop [] c._object.value ↔
      (c.root.peek_path ks = .ok (some v) ∧
        v.value_type ≠ .OBJECT ∧ v.value_type ≠ .CONFIG_NULL) := by
    intro ks v
    rw [mem_leaves_loop [] c._object.value hu2 c._object.status ks v]
    simp [config.root, config_value.is_leaf]
  refine ⟨leaves_loop [] c._object.value, heq, nodup_leaves_loop [] _ hu2, hmem, ?_⟩
  intro s v hsv
  rw [heq] at hsv
  obtain ⟨⟨ks, w⟩, hm, hkv⟩ := List.mem_map.1 hsv
  simp only [Prod.mk.injEq] at hkv
  obtain ⟨_, rfl⟩ := hkv
  have := (hmem ks w).1 hm
  exact ⟨this.2.2, this.2.1⟩

/-- C9 on the tree of scenario 1, whose Objects have unique keys: the entry set
holds `a.b.c` and `list`, and not the Null at `x`. -/
theorem entry_set_is_the_rendered_leaves_witness :
    ∃ leaves : List (path × config_value),
      scenario_tree.entry_set path.render = leaves.map (fun kv => (path.render kv.1, kv.2)) ∧
      (leaves.map Prod.fst).Nodup ∧
      (∀ ks v, (ks, v) ∈ leaves ↔
        (scenario_tree.root.peek_path ks = .ok (some v) ∧
          v.value_type ≠ .OBJECT ∧ v.value_type ≠ .CONFIG_NULL)) ∧
      (∀ s v, (s, v) ∈ scenario_tree.entry_set path.render →
        v.value_type ≠ .CONFIG_NULL ∧ v.value_type ≠ .OBJECT) :=
  entry_set_is_the_rendered_leaves path.render scenario_tree rfl

/-! ## C11 -/

theorem default_transform_keeps_numbers : keeps_numbers default_transformer.transform := by
  intro v hv
  cases v <;> simp [config_value.value_type] at hv <;> rfl

theorem default_transform_keeps_strings : keeps_strings default_transformer.transform := by
  intro s q
  rfl

/-- The value `get_list` returns at a path that locates a List. -/
theorem get_list_of_located_list
    (transform : config_value → config_value.type → config_value)
    (render : path → String) (new_path : String → path)
    (htr : no_object_coercion transform) (hkl : keeps_lists transform) (c : config)
    (path_expression : String) (items : List config_value)
    (hv : c.root.peek_path (new_path path_expression) = .ok (some (.config_list items))) :
    c.get_list transform render new_path path_expression = .ok (some items) := by
  have hd := descent_of_located transform render new_path htr c path_expression
    (.config_list items) (.config_list items) hv .LIST
    (Or.inr ⟨by decide, (hkl items).symm, Or.inl rfl⟩)
  have hf := find_of_descent_ok transform render new_path c _ _ _ hd
  simp only [config_value.value_type, reduceCtorEq, if_false] at hf
  simp only [config.get_list, hf, dynamic_pointer_cast_config_list]

theorem get_long_list_loop_step_integer (x : config_value) (n : Int)
    (hx : holds_integer x n) (rest : List config_value) (long_list : List Int) :
    config.get_long_list_loop (config_value.unwrapped_items (x :: rest)) long_list =
      config.get_long_list_loop (config_value.unwrapped_items rest) (long_list ++ [n]) := by
  rcases hx with rfl | rfl
  · simp only [config_value.unwrapped_items, config_value.unwrapped,
      config.get_long_list_loop, boost_get_int64, boost_get_int]
  · simp only [config_value.unwrapped_items, config_value.unwrapped,
      config.get_long_list_loop, boost_get_int64]

theorem get_long_list_loop_step_other (x : config_value) (hx : ¬ x.is_integer)
    (rest : List config_value) (long_list : List Int) :
    config.get_long_list_loop (config_value.unwrapped_items (x :: rest)) long_list =
      .error (.thrown ⟨.config_exception, .list_not_only_desired_type⟩) := by
  cases x with
  | config_int n => exact absurd ⟨n, Or.inl rfl⟩ hx
  | config_long n => exact absurd ⟨n, Or.inr rfl⟩ hx
  | _ =>
    simp only [config_value.unwrapped_items, config_value.unwrapped,
      config.get_long_list_loop, boost_get_int64, boost_get_int, throw_exception]

/-- The loop of `get_long_list` throws when some item still to visit is not an
integer leaf, whatever the vector filled so far holds. -/
theorem get_long_list_loop_of_non_integer (items : List config_value)
    (h : ∃ x ∈ items, ¬ x.is_integer) (long_list : List Int) :
    config.get_long_list_loop (config_value.unwrapped_items items) long_list =
      .error (.thrown ⟨.config_exception, .list_not_only_desired_type⟩) := by
  induction items generalizing long_list with
  | nil => obtain ⟨x, hx, _⟩ := h; cases hx
  | cons y rest ih =>
    by_cases hy : y.is_integer
    · obtain ⟨n, hn⟩ := hy
      rw [get_long_list_loop_step_integer y n hn]
      apply ih
      obtain ⟨x, hx, hnx⟩ := h
      rcases List.mem_cons.1 hx with rfl | hx'
      · exact absurd ⟨n, hn⟩ hnx
      · exact ⟨x, hx', hnx⟩
    · exact get_long_list_loop_step_other y hy rest long_list

/-- C11: for every path that locates a List with at least one element that is
not an integer leaf (neither a 32-bit int nor a 64-bit integer),
`get_long_list` fails as a whole, returning no sequence: it throws the
exception whose message is "The list did not contain only the desired type.",
which is of kind WrongType. -/
theorem get_long_list_of_non_integer_list
    (transform : config_value → config_value.type → config_value)
    (render : path → String) (new_path : String → path)
    (htr : no_object_coercion transform) (hkl : keeps_lists transform) (c : config)
    (path_expression : String) (items : List config_value)
    (hv : c.root.peek_path (new_path path_expression) = .ok (some (.config_list items)))
    (hbad : ∃ x ∈ items, ¬ x.is_integer) :
    c.get_long_list transform render new_path path_expression =
      .error (.thrown ⟨.config_exception, .list_not_only_desired_type⟩) ∧
    (⟨.config_exception, .list_not_only_desired_type⟩ : config_exception).kind
      = .WrongType := by
  refine ⟨?_, rfl⟩
  have hl := get_list_of_located_list transform render new_path htr hkl c path_expression
    items hv
  simp only [config.get_long_list, config.get_homogeneous_unwrapped_list_int64, hl]
  exact get_long_list_loop_of_non_integer items hbad []

/-- C11 on the tree `{list: [1, "two", 3]}`: the String makes the whole
extraction fail. -/
theorem get_long_list_of_non_integer_list_witness :
    mixed_list_tree.get_long_list default_transformer.transform path.render path.new_path
        "list"
      = .error (.thrown ⟨.config_exception, .list_not_only_desired_type⟩) ∧
    (⟨.config_exception, .list_not_only_desired_type⟩ : config_exception).kind
      = .WrongType :=
  get_long_list_of_non_integer_list default_transformer.transform path.render
    path.new_path default_transform_no_object_coercion default_transform_keeps_lists
    mixed_list_tree "list"
    [.config_int 1, .config_string "two" .QUOTED, .config_int 3] rfl
    ⟨.config_string "two" .QUOTED, by simp, by
      rintro ⟨n, h | h⟩ <;> cases h⟩

/-! ## C12 -/

/-- C12: for every path that locates a Number, with `l` the integer the Number
holds (`n` itself for a Number stored as a 32-bit int or a 64-bit integer):
`get_long` returns `l` without any range failure; `get_int` returns `l` when
`l` lies in the signed 32-bit range and otherwise raises NumericOverflow
carrying the path expression, which is not of kind WrongType. -/
theorem get_int_and_get_long_of_number
    (transform : config_value → config_value.type → config_value)
    (render : path → String) (new_path : String → path)
    (htr : no_object_coercion transform) (hkn : keeps_numbers transform) (c : config)
    (path_expression : String) (v : config_value)
    (hv : c.root.peek_path (new_path path_expression) = .ok (some v))
    (hnum : v.value_type = .NUMBER) :
    ∃ l, v.long_value = some l ∧
      (∀ n, holds_integer v n → l = n) ∧
      c.get_long transform render new_path path_expression = .ok l ∧
      (-2147483648 ≤ l ∧ l ≤ 2147483647 →
        c.get_int transform render new_path path_expression = .ok l) ∧
      (¬ (-2147483648 ≤ l ∧ l ≤ 2147483647) →
        c.get_int transform render new_path path_expression =
          .error (.thrown ⟨.config_exception, .out_of_range path_expression⟩)) ∧
      (⟨.config_exception, .out_of_range path_expression⟩ : config_exception).kind
        = .NumericOverflow ∧
      (⟨.config_exception, .out_of_range path_expression⟩ : config_exception).kind
        ≠ .WrongType := by
  obtain ⟨l, hl⟩ := long_value_of_number v hnum
  have hd := descent_of_located transform render new_path htr c path_expression v v hv
    .NUMBER (Or.inr ⟨by decide, (hkn v hnum).symm, Or.inl hnum⟩)
  have hf := find_of_descent_ok transform render new_path c _ _ _ hd
  have hnn : v.value_type ≠ .CONFIG_NULL := by rw [hnum]; decide
  simp only [hnn, if_false] at hf
  refine ⟨l, hl, ?_, ?_, ?_, ?_, rfl, by simp [config_exception.kind, message.kind]⟩
  · rintro n (rfl | rfl) <;> simpa [config_value.long_value] using hl.symm
  · simp only [config.get_long, hf, hl]
  · intro hr
    simp only [config.get_int, hf, hl, int_value_range_checked, hr, and_self, if_true]
  · intro hr
    simp only [config.get_int, hf, hl, int_value_range_checked, hr, if_false,
      throw_exception]

/-- C12 at `a.b.c` in the tree of scenario 1: `get_int` and `get_long` return 1. -/
theorem get_int_and_get_long_of_number_witness :
    scenario_tree.get_long default_transformer.transform path.render path.new_path "a.b.c"
      = .ok 1 ∧
    scenario_tree.get_int default_transformer.transform path.render path.new_path "a.b.c"
      = .ok 1 := by
  obtain ⟨l, hl, hn, hlong, hint, _⟩ := get_int_and_get_long_of_number
    default_transformer.transform path.render path.new_path
    default_transform_no_object_coercion default_transform_keeps_numbers scenario_tree
    "a.b.c" (.config_int 1) rfl rfl
  have h1 : l = 1 := hn 1 (Or.inl rfl)
  subst h1
  exact ⟨hlong, hint (by decide)⟩

/-! ## C13 -/

theorem lookup_merge_entries (key : String) (fallback : List (String × config_value)) :
    ∀ es : List (String × config_value),
      (merge_entries es fallback).lookup key =
        (es.lookup key).map (fun v => merge_value v (fallback.lookup key))
  | [] => by simp [merge_entries]
  | (k, v) :: rest => by
    rw [merge_entries, List.lookup_cons, List.lookup_cons,
      lookup_merge_entries key fallback rest]
    by_cases h : key = k
    · subst h; simp
    · have : (key == k) = false := by simpa using h
      simp [this]

theorem lookup_filter_absent (key : String) (es : List (String × config_value)) :
    ∀ fallback : List (String × config_value),
      (fallback.filter (fun kv => (es.lookup kv.1).isNone)).lookup key =
        if (es.lookup key).isNone then fallback.lookup key else none
  | [] => by simp
  | (k, w) :: rest => by
    have ih := lookup_filter_absent key es rest
    by_cases hk : (es.lookup k).isNone = true
    · rw [List.filter_cons_of_pos (by simpa using hk), List.lookup_cons, List.lookup_cons, ih]
      by_cases h : key = k
      · subst h; simp [hk]
      · have : (key == k) = false := by simpa using h
        simp [this]
    · rw [List.filter_cons_of_neg (by simpa using hk), ih, List.lookup_cons]
      by_cases h : key = k
      · subst h; simp [hk]
      · have : (key == k) = false := by simpa using h
        simp [this]

/-- The value bound to a key in the merge of two Objects. -/
theorem lookup_merged (key : String) (es es2 : List (String × config_value)) :
    (merge_entries es es2 ++ es2.filter (fun kv => (es.lookup kv.1).isNone)).lookup key =
      match es.lookup key with
      | some v => some (merge_value v (es2.lookup key))
      | none => es2.lookup key := by
  rw [List.lookup_append, lookup_merge_entries, lookup_filter_absent]
  cases es.lookup key <;> simp

theorem merge_value_of_leaf (w : config_value) (hw : w.is_leaf) (fb : Option config_value) :
    merge_value w fb = w := by
  cases w <;> first
    | rfl
    | exact absurd rfl hw.1
    | exact absurd rfl hw.2

theorem peek_below_cons_object (st : resolve_status) (es : List (String × config_value))
    (key : String) (rest : path) :
    (config_value.simple_config_object st es).peek_below (key :: rest) =
      match es.lookup key with
      | none => .ok none
      | some w => w.peek_below rest := by
  simp only [config_value.peek_below, dynamic_pointer_cast_config_object]
  exact peek_path_eq_peek_below ⟨st, es⟩ key rest

theorem peek_below_cons_some (w : config_value) (key : String) (rest : path)
    (v : config_value) (h : w.peek_below (key :: rest) = .ok (some v)) :
    ∃ st es w2, w = .simple_config_object st es ∧ es.lookup key = some w2 ∧
      w2.peek_below rest = .ok (some v) := by
  cases w with
  | simple_config_object st es =>
    rw [peek_below_cons_object] at h
    cases hl : es.lookup key with
    | none => simp [hl] at h
    | some w2 =>
      simp only [hl] at h
      exact ⟨st, es, w2, rfl, hl, h⟩
  | _ => simp [config_value.peek_below, dynamic_pointer_cast_config_object] at h

/-- A leaf of the receiver is found at the same place in the merge. -/
theorem peek_below_merge_leaf :
    ∀ (p : path) (w : config_value) (fb : Option config_value) (v : config_value),
      w.peek_below p = .ok (some v) → v.is_leaf →
      (merge_value w fb).peek_below p = .ok (some v)
  | [], w, fb, v, h, hv => by
    simp only [config_value.peek_below, Except.ok.injEq, Option.some.injEq] at h
    subst h
    rw [merge_value_of_leaf w hv]
    rfl
  | key :: rest, w, fb, v, h, hv => by
    obtain ⟨st, es, w2, rfl, hl, h2⟩ := peek_below_cons_some w key rest v h
    cases fb with
    | none => simpa [merge_value] using h
    | some wb =>
      cases wb with
      | simple_config_object st2 es2 =>
        simp only [merge_value]
        rw [peek_below_cons_object, lookup_merged, hl]
        exact peek_below_merge_leaf rest w2 _ v h2 hv
      | _ => simpa [merge_value] using h

theorem merge_value_of_null (w : config_value) (hw : w.value_type = .CONFIG_NULL)
    (wb : config_value) : merge_value w (some wb) = wb := by
  cases w <;> simp [config_value.value_type] at hw
  rfl

/-- A value of the fallback is found at the same place in the merge when the
receiver gives way along the path. -/
theorem peek_below_merge_fallback :
    ∀ (p : path) (w wb : config_value) (v : config_value),
      wb.peek_below p = .ok (some v) → w.gives_way p →
      (merge_value w (some wb)).peek_below p = .ok (some v)
  | [], w, wb, v, h, hw => by
    simp only [config_value.gives_way] at hw
    rw [merge_value_of_null w hw]
    exact h
  | key :: rest, w, wb, v, h, hw => by
    simp only [config_value.gives_way] at hw
    rcases hw with hnull | ⟨st, es, rfl, hgw⟩
    · rw [merge_value_of_null w hnull]
      exact h
    · obtain ⟨st2, es2, wb2, rfl, hl2, h2⟩ := peek_below_cons_some wb key rest v h
      simp only [merge_value]
      rw [peek_below_cons_object, lookup_merged, hl2]
      cases hl : es.lookup key with
      | none => exact h2
      | some w2 => exact peek_below_merge_fallback rest w2 wb2 v h2 (hgw w2 hl)

/-- An Object gives way along a path when it has no non-null value at the path
and only Objects or Nulls at the proper parts of the path. -/
theorem gives_way_of_peek :
    ∀ (p : path) (st : resolve_status) (es : List (String × config_value)), p ≠ [] →
      (∀ v, (⟨st, es⟩ : config_object).peek_path p = .ok (some v) →
        v.value_type = .CONFIG_NULL) →
      (∀ pre post v, p = pre ++ post → post ≠ [] →
        (⟨st, es⟩ : config_object).peek_path pre = .ok (some v) →
        v.value_type = .OBJECT ∨ v.value_type = .CONFIG_NULL) →
      (config_value.simple_config_object st es).gives_way p
  | [], _, _, hne, _, _ => absurd rfl hne
  | key :: rest, st, es, _, h1, h2 => by
    simp only [config_value.gives_way]
    refine Or.inr ⟨st, es, rfl, ?_⟩
    intro w2 hl
    have hpk : ∀ next, (⟨st, es⟩ : config_object).peek_path (key :: next)
        = w2.peek_below next := by
      intro next
      rw [peek_path_eq_peek_below]
      simp only [hl]
    cases rest with
    | nil =>
      simp only [config_value.gives_way]
      exact h1 w2 (by rw [hpk]; rfl)
    | cons k2 rest2 =>
      have hw2 := h2 [key] (k2 :: rest2) w2 rfl (by simp) (by rw [hpk]; rfl)
      rcases hw2 with hobj | hnull
      · obtain ⟨st2, es2, rfl⟩ := (value_type_object_iff w2).1 hobj
        apply gives_way_of_peek (k2 :: rest2) st2 es2 (by simp)
        · intro v hv
          apply h1 v
          rw [hpk]
          simpa [config_value.peek_below, dynamic_pointer_cast_config_object] using hv
        · intro pre post v hp hpost hv
          have hpre : pre ≠ [] := peek_path_ne_nil _ _ _ hv
          apply h2 (key :: pre) post v (by rw [hp]; rfl) hpost
          rw [hpk]
          obtain ⟨k3, pre3, rfl⟩ := List.exists_cons_of_ne_nil hpre
          simpa [config_value.peek_below, dynamic_pointer_cast_config_object] using hv
      · simp only [config_value.gives_way]
        exact Or.inl hnull

theorem peek_below_to_value (o : config_object) (p : path) (hp : p ≠ []) :
    o.to_value.peek_below p = o.peek_path p := by
  obtain ⟨key, rest, rfl⟩ := List.exists_cons_of_ne_nil hp
  simp [config_object.to_value, config_value.peek_below, dynamic_pointer_cast_config_object]

/-- The merge of an Object with any fallback is an Object. -/
theorem merge_value_object (st : resolve_status) (es : List (String × config_value))
    (fb : Option config_value) :
    ∃ o : config_object, merge_value (.simple_config_object st es) fb = o.to_value := by
  cases fb with
  | none => exact ⟨⟨st, es⟩, rfl⟩
  | some wb => cases wb <;> exact ⟨⟨_, _⟩, rfl⟩

theorem cast_to_value (o : config_object) :
    dynamic_pointer_cast_config_object o.to_value = some o := rfl

/-- C13, as stated, fails for the receiver `a = {x: {p: 1}}` and the fallback
`b = {x: {q: 2}}`, whatever the merge does: `a` has a non-null value at `x` and
`x.q` is present only in `b`, and no Config at all has the value of `a` at `x`
and the value of `b` at `x.q`.  The merge has `{p: 1, q: 2}` at `x`. -/
theorem with_fallback_cannot_keep_receiver_object :
    nested_config_a.root.peek_path ["x"]
      = .ok (some (.simple_config_object .RESOLVED [("p", .config_int 1)])) ∧
    nested_config_a.root.peek_path ["x", "q"] = .ok none ∧
    nested_config_b.root.peek_path ["x", "q"] = .ok (some (.config_int 2)) ∧
    (¬ ∃ m : config,
      m.root.peek_path ["x"] = nested_config_a.root.peek_path ["x"] ∧
      m.root.peek_path ["x", "q"] = nested_config_b.root.peek_path ["x", "q"]) ∧
    config.with_fallback config_object.with_fallback nested_config_a
        (.of_config nested_config_b)
      = .ok ⟨⟨.RESOLVED,
          [("x", .simple_config_object .RESOLVED
            [("p", .config_int 1), ("q", .config_int 2)])]⟩⟩ := by
  refine ⟨rfl, rfl, rfl, ?_, rfl⟩
  rintro ⟨m, h1, h2⟩
  have ha : nested_config_a.root.peek_path ["x"]
      = .ok (some (.simple_config_object .RESOLVED [("p", .config_int 1)])) := rfl
  have hb : nested_config_b.root.peek_path ["x", "q"] = .ok (some (.config_int 2)) := rfl
  rw [ha] at h1
  rw [hb] at h2
  rw [peek_path_eq_peek_below] at h1 h2
  cases hl : m.root.value.lookup "x" with
  | none => simp [hl] at h1
  | some w =>
    simp only [hl, config_value.peek_below, Except.ok.injEq, Option.some.injEq] at h1
    subst h1
    simp only [hl] at h2
    have : (config_value.simple_config_object .RESOLVED [("p", .config_int 1)]).peek_below
        ["q"] = .ok none := rfl
    rw [this] at h2
    cases h2

/-- C13, amended: for all Configs `a` and `b`, `a.with_fallback(b)` under the
merge of the specification returns a Config `m` wrapping an Object such that
(1) for every path at which `a` has a value that is neither Null nor an Object,
`m` has that value at the path, and (2) for every path at which `b` has a value
while `a` has no non-null value there and nothing but Objects or Nulls at the
proper parts of the path, `m` has the value of `b` at the path.  Whatever the
Object-level merge is, `with_fallback` returns the Config wrapping its result
when that is an Object, and the only exception it raises is BugOrBroken, when
the result is not an Object. -/
theorem with_fallback_of_configs (a b : config) :
    ∃ m, config.with_fallback config_object.with_fallback a (.of_config b) = .ok m ∧
      (∀ p v, a.root.peek_path p = .ok (some v) →
        v.value_type ≠ .OBJECT → v.value_type ≠ .CONFIG_NULL →
        m.root.peek_path p = .ok (some v)) ∧
      (∀ p w, b.root.peek_path p = .ok (some w) →
        (∀ v, a.root.peek_path p = .ok (some v) → v.value_type = .CONFIG_NULL) →
        (∀ pre post v, p = pre ++ post → post ≠ [] →
          a.root.peek_path pre = .ok (some v) →
          v.value_type = .OBJECT ∨ v.value_type = .CONFIG_NULL) →
        m.root.peek_path p = .ok (some w)) ∧
      (∀ (f : config_object → config_mergeable → config_value) (other : config_mergeable),
        (∀ o : config_object, f a._object other = o.to_value →
          config.with_fallback f a other = .ok o.to_config) ∧
        (∀ fl, config.with_fallback f a other = .error fl →
          fl = .thrown ⟨.bug_or_broken_exception, .did_not_return_config_object⟩ ∧
          (f a._object other).value_type ≠ .OBJECT)) := by
  obtain ⟨o, ho⟩ := merge_value_object a._object.status a._object.value
    (some b._object.to_value)
  have hm : config.with_fallback config_object.with_fallback a (.of_config b)
      = .ok o.to_config := by
    simp only [config.with_fallback, config_object.with_fallback,
      config_mergeable.to_fallback_value, config.to_fallback_value]
    have : a._object.to_value = .simple_config_object a._object.status a._object.value := rfl
    rw [this, ho, cast_to_value]
  refine ⟨o.to_config, hm, ?_, ?_, ?_⟩
  · intro p v hv h1 h2
    have hne := peek_path_ne_nil _ _ _ hv
    have := peek_below_merge_leaf p a.root.to_value (some b._object.to_value) v
      (by rw [peek_below_to_value _ p hne]; exact hv) ⟨h1, h2⟩
    have hto : a.root.to_value
        = .simple_config_object a._object.status a._object.value := rfl
    rw [hto, ho, peek_below_to_value _ p hne] at this
    exact this
  · intro p w hw h1 h2
    have hne := peek_path_ne_nil _ _ _ hw
    have hgw := gives_way_of_peek p a._object.status a._object.value hne h1 h2
    have := peek_below_merge_fallback p _ b._object.to_value w
      (by rw [peek_below_to_value _ p hne]; exact hw) hgw
    rw [ho, peek_below_to_value _ p hne] at this
    exact this
  · intro f other
    constructor
    · intro o2 h2
      simp only [config.with_fallback, h2, cast_to_value]
    · intro fl hfl
      simp only [config.with_fallback] at hfl
      cases hc : dynamic_pointer_cast_config_object (f a._object other) with
      | some o2 => simp [hc] at hfl
      | none =>
        simp only [hc, throw_exception, Except.error.injEq] at hfl
        exact ⟨hfl.symm, (cast_object_eq_none _).1 hc⟩

/-- The amended C13 on scenario 5 of the specification: for `a = {port: 80}` and
`b = {port: 8080, host: "x"}` the merge has 80 at `port` and "x" at `host`, and
`get_int("port")` and `get_string("host")` return them. -/
theorem with_fallback_of_configs_witness :
    ∃ m, config.with_fallback config_object.with_fallback scenario_config_a
        (.of_config scenario_config_b) = .ok m ∧
      m.root.peek_path ["port"] = .ok (some (.config_int 80)) ∧
      m.root.peek_path ["host"] = .ok (some (.config_string "x" .QUOTED)) ∧
      m.get_int default_transformer.transform path.render path.new_path "port" = .ok 80 ∧
      m.get_string default_transformer.transform path.render path.new_path "host"
        = .ok "x" := by
  obtain ⟨m, hm, h1, h2, _⟩ := with_fallback_of_configs scenario_config_a scenario_config_b
  have hm2 : config.with_fallback config_object.with_fallback scenario_config_a
      (.of_config scenario_config_b)
      = .ok ⟨⟨.RESOLVED, [("port", .config_int 80),
          ("host", .config_string "x" .QUOTED)]⟩⟩ := rfl
  refine ⟨m, hm, h1 ["port"] _ rfl (by decide) (by decide), ?_, ?_, ?_⟩
  · apply h2 ["host"] _ rfl
    · intro v hv
      have : scenario_config_a.root.peek_path ["host"] = .ok none := rfl
      rw [this] at hv; cases hv
    · intro pre post v hp hpost hv
      have hpre := peek_path_ne_nil _ _ _ hv
      have hlen := congrArg List.length hp
      simp only [List.length_cons, List.length_nil, List.length_append] at hlen
      have := List.length_pos.2 hpre
      have := List.length_pos.2 hpost
      omega
  · rw [hm] at hm2
    simp only [Except.ok.injEq] at hm2
    subst hm2
    rfl
  · rw [hm] at hm2
    simp only [Except.ok.injEq] at hm2
    subst hm2
    rfl

/-! ## C14 -/

theorem lookup_set_entry (key : String) (v : config_value) :
    ∀ es : List (String × config_value), (set_entry key v es).lookup key = some v
  | [] => by simp [set_entry]
  | (k, w) :: rest => by
    by_cases h : k = key
    · simp [set_entry, h]
    · have : (key == k) = false := by simpa using (fun h2 : key = k => h h2.symm)
      simp [set_entry, h, List.lookup_cons, this, lookup_set_entry key v rest]

/-- The peek locates the value at the path it was set at. -/
theorem peek_path_with_value (v : config_value) :
    ∀ (p : path) (self : config_object), p ≠ [] →
      (self.with_value p v).peek_path p = .ok (some v)
  | [], _, hne => absurd rfl hne
  | [key], self, _ => by
    simp [config_object.with_value, config_object.peek_path, lookup_set_entry]
  | key :: k2 :: rest, self, _ => by
    rw [peek_path_cons _ key (k2 :: rest) (by simp)]
    simp only [config_object.with_value, lookup_set_entry, cast_to_value]
    exact peek_path_with_value v (k2 :: rest) _ (by simp)

/-- Whatever the transform step does, `get_value` returns no Null-tagged value. -/
theorem get_value_ne_null (transform : config_value → config_value.type → config_value)
    (render : path → String) (new_path : String → path) (c : config)
    (path_expression : String) (t : config_value)
    (h : c.get_value transform render new_path path_expression = .ok t) :
    t.value_type ≠ .CONFIG_NULL := by
  rw [config.get_value, find_eq] at h
  rcases hr : config.find_or_null_static transform render c._object (new_path path_expression)
    .UNSPECIFIED (new_path path_expression) with f | w
  · simp [hr] at h
  · simp only [hr, config.throw_if_null, throw_exception] at h
    split at h
    · cases h
    · rename_i hn
      simp only [Except.ok.injEq] at h
      subst h
      exact hn

/-- C14, as stated, fails for a Null-tagged value: `{}.with_value("x", null)`
has the Null at `x`, and `get_value("x")` on it raises Null; indeed `get_value`
returns Null on no Config whatsoever. -/
theorem with_value_null_then_get_value_raises :
    (empty_config.with_value path.new_path "x" .config_null).root.peek_path
        (path.new_path "x") = .ok (some .config_null) ∧
    (empty_config.with_value path.new_path "x" .config_null).get_value
        default_transformer.transform path.render path.new_path "x"
      = .error (.thrown ⟨.null_exception, .is_null "x"⟩) ∧
    (¬ ∃ c : config, c.get_value default_transformer.transform path.render path.new_path
      "x" = .ok .config_null) := by
  refine ⟨rfl, rfl, ?_⟩
  rintro ⟨c, hc⟩
  exact get_value_ne_null _ _ _ c "x" _ hc rfl

/-- C14, amended: for every Config `c`, every non-empty path `p` and every value
`v`, the peek locates `v` at `p` in `c.with_value(p, v)`; `get_value(p)` on it
returns `v` when `v` is not Null-tagged and raises Null, carrying the rendered
path, when it is.  `with_value` is a function of `c`: it builds a new Config
and leaves `c` as it was. -/
theorem with_value_then_get_value
    (transform : config_value → config_value.type → config_value)
    (render : path → String) (new_path : String → path)
    (htr : no_object_coercion transform) (c : config) (path_expression : String)
    (v : config_value) (hne : new_path path_expression ≠ []) :
    (c.with_value new_path path_expression v).root.peek_path (new_path path_expression)
      = .ok (some v) ∧
    (v.value_type ≠ .CONFIG_NULL →
      (c.with_value new_path path_expression v).get_value transform render new_path
        path_expression = .ok v) ∧
    (v.value_type = .CONFIG_NULL →
      (c.with_value new_path path_expression v).get_value transform render new_path
        path_expression =
        .error (.thrown ⟨.null_exception, .is_null (render (new_path path_expression))⟩)) := by
  have hp : (c.with_value new_path path_expression v).root.peek_path
      (new_path path_expression) = .ok (some v) :=
    peek_path_with_value v _ c.root hne
  have hd := descent_of_located transform render new_path htr
    (c.with_value new_path path_expression v) path_expression v v hp
    .UNSPECIFIED (Or.inl ⟨rfl, rfl⟩)
  have hf := find_of_descent_ok transform render new_path _ _ _ v hd
  refine ⟨hp, ?_, ?_⟩
  · intro hv
    rw [config.get_value, hf]
    simp [hv]
  · intro hv
    rw [config.get_value, hf]
    simp [hv]

/-- The amended C14 on the tree of scenario 1: after `with_value("a.b.d", 7)`,
`get_value("a.b.d")` returns 7. -/
theorem with_value_then_get_value_witness :
    (scenario_tree.with_value path.new_path "a.b.d" (.config_int 7)).get_value
      default_transformer.transform path.render path.new_path "a.b.d"
      = .ok (.config_int 7) :=
  (with_value_then_get_value default_transformer.transform path.render path.new_path
    default_transform_no_object_coercion scenario_tree "a.b.d" (.config_int 7)
    (by decide)).2.1 (by decide)

/-! ## C15 -/

/-- The loop of `get_object_list` over Objects appends them, in order, to the
vector filled so far. -/
theorem get_object_list_loop_of_objects (objects : List config_object)
    (object_list : List config_object) :
    config.get_object_list_loop (objects.map config_object.to_value) object_list
      = .ok (object_list ++ objects) := by
  induction objects generalizing object_list with
  | nil => simp [config.get_object_list_loop]
  | cons o rest ih =>
    simp only [List.map_cons, config.get_object_list_loop, cast_to_value]
    rw [ih]; simp

/-- The loop of `get_object_list` throws the pointer when some item still to
visit is not an Object. -/
theorem get_object_list_loop_of_non_object (items : List config_value)
    (h : ∃ x ∈ items, x.value_type ≠ .OBJECT) (object_list : List config_object) :
    config.get_object_list_loop items object_list =
      .error (.thrown ⟨.config_exception_pointer, .list_not_only_config_objects⟩) := by
  induction items generalizing object_list with
  | nil => obtain ⟨x, hx, _⟩ := h; cases hx
  | cons y rest ih =>
    cases hc : dynamic_pointer_cast_config_object y with
    | none => simp only [config.get_object_list_loop, hc, throw_exception]
    | some o =>
      simp only [config.get_object_list_loop, hc]
      apply ih
      obtain ⟨x, hx, hnx⟩ := h
      rcases List.mem_cons.1 hx with rfl | hx'
      · have := (cast_object_eq_some x o).1 hc
        rw [this] at hnx
        exact absurd rfl hnx
      · exact ⟨x, hx', hnx⟩

/-- C15, the code at the failing input: on `{l: [{a: 1}], m: [1]}`,
`get_object_list("l")` returns the one Object of the list, while
`get_object_list("m")`, whose element is a Number, throws a pointer to a
`config_exception` (`throw new`, line 269), which a handler for
`config_exception` does not catch; the sibling `get_config_list` (line 282)
throws the exception object itself. -/
theorem get_object_list_throws_a_pointer :
    object_list_tree.get_object_list default_transformer.transform path.render
        path.new_path "l"
      = .ok [⟨.RESOLVED, [("a", .config_int 1)]⟩] ∧
    object_list_tree.get_object_list default_transformer.transform path.render
        path.new_path "m"
      = .error (.thrown ⟨.config_exception_pointer, .list_not_only_config_objects⟩) ∧
    exception_class.config_exception_pointer.is_config_exception = false ∧
    exception_class.config_exception.is_config_exception = true :=
  ⟨rfl, rfl, rfl, rfl⟩

/-! ## C16 -/

/-- The loop of `get_config_list` throws on the first item, whatever it is. -/
theorem get_config_list_loop_cons (item : config_value) (rest : List config_value)
    (object_list : List config) :
    config.get_config_list_loop (item :: rest) object_list =
      .error (.thrown ⟨.config_exception, .list_not_only_configs⟩) := by
  simp only [config.get_config_list_loop, dynamic_pointer_cast_config, throw_exception]

/-- C16, the code at the failing input: on `{l: [{a: 1}], m: [1]}`, the only
element of the list at `l` is an Object, yet `get_config_list("l")` throws
"List does not contain only configs.": the cast of line 280 is to `config`, a
class no element of a list has, where `get_config` (line 236) goes through
`get_object` and `to_config()`. -/
theorem get_config_list_fails_on_objects :
    object_list_tree.root.peek_path (path.new_path "l")
      = .ok (some (.config_list [.simple_config_object .RESOLVED [("a", .config_int 1)]])) ∧
    object_list_tree.get_config_list default_transformer.transform path.render
        path.new_path "l"
      = .error (.thrown ⟨.config_exception, .list_not_only_configs⟩) ∧
    object_list_tree.get_object_list default_transformer.transform path.render
        path.new_path "l"
      = .ok [⟨.RESOLVED, [("a", .config_int 1)]⟩] :=
  ⟨rfl, rfl, rfl⟩

/-! ## C17 -/

theorem lookup_emplace (k : String) (v : config_value) (values : List (String × config_value))
    (name : String) :
    (emplace k v values).lookup name =
      (values.lookup name).or (if name = k then some v else none) := by
  unfold emplace
  by_cases h : (values.lookup k).isSome = true
  · simp only [h, if_true]
    by_cases hn : name = k
    · subst hn
      obtain ⟨w, hw⟩ := Option.isSome_iff_exists.1 h
      simp [hw]
    · simp [hn]
  · simp only [h, Bool.false_eq_true, if_false, List.lookup_append]
    by_cases hn : name = k
    · subst hn; simp
    · have : (name == k) = false := by simpa using hn
      simp [hn, List.lookup_cons, this]

/-- The binding of a name in the map the callback of line 380 fills. -/
theorem lookup_environment (name : String) :
    ∀ (environment : List (String × String)) (values : List (String × config_value)),
      (environment.foldl
          (fun values kv => emplace kv.1 (.config_string kv.2 .QUOTED) values)
          values).lookup name =
        (values.lookup name).or
          ((environment.lookup name).map (fun s => .config_string s .QUOTED))
  | [], values => by simp
  | (k, s) :: rest, values => by
    rw [List.foldl_cons, lookup_environment name rest, lookup_emplace, List.lookup_cons]
    by_cases hn : name = k
    · subst hn
      cases values.lookup name <;> simp
    · have : (name == k) = false := by simpa using hn
      cases values.lookup name <;> simp [hn, this]

/-- C17, as stated, fails for a variable whose name holds a dot: the Object
built from `a.b=v` binds the key `a.b` to the String, but `get_string("a.b")`
reads the name as the path of keys `a`, `b` and raises Missing on `a`. -/
theorem env_variable_with_dotted_name :
    (config.env_variables_as_config_object dotted_environment).value.lookup "a.b"
      = some (.config_string "v" .QUOTED) ∧
    (config.env_variables_as_config_object dotted_environment).to_config.get_string
        default_transformer.transform path.render path.new_path "a.b"
      = .error (.thrown ⟨.config_exception, .no_configuration_setting "a"⟩) :=
  ⟨rfl, rfl⟩

/-- C17, amended: for every flat key/value source, `env_variables_as_config_object()`
yields an Object whose resolve-status is RESOLVED and that binds every name of
the source to a quoted String with the value the source gives that name; the
Config wrapping it is resolved, and `get_string(NAME)` returns that value for
every name that, as a path expression, is the single key NAME. -/
theorem env_variables_as_config_object_spec
    (transform : config_value → config_value.type → config_value)
    (render : path → String) (new_path : String → path)
    (htr : no_object_coercion transform) (hks : keeps_strings transform)
    (environment : List (String × String)) :
    (config.env_variables_as_config_object environment).get_resolve_status = .RESOLVED ∧
    (config.env_variables_as_config_object environment).to_config.is_resolved = true ∧
    (∀ name value, environment.lookup name = some value →
      (config.env_variables_as_config_object environment).value.lookup name
        = some (.config_string value .QUOTED)) ∧
    (∀ name value, environment.lookup name = some value → new_path name = [name] →
      (config.env_variables_as_config_object environment).to_config.get_string
        transform render new_path name = .ok value) := by
  have hlook : ∀ name value, environment.lookup name = some value →
      (config.env_variables_as_config_object environment).value.lookup name
        = some (.config_string value .QUOTED) := by
    intro name value hl
    simp only [config.env_variables_as_config_object, lookup_environment, hl]
    simp
  refine ⟨rfl, rfl, hlook, ?_⟩
  intro name value hl hp
  have hv : (config.env_variables_as_config_object environment).to_config.root.peek_path
      (new_path name) = .ok (some (.config_string value .QUOTED)) := by
    rw [hp]
    simp only [config_object.peek_path, config.root, config_object.to_config]
    rw [hlook name value hl]
  have hd := descent_of_located transform render new_path htr _ name _
    (.config_string value .QUOTED) hv .STRING
    (Or.inr ⟨by decide, (hks value .QUOTED).symm, Or.inl rfl⟩)
  have hf := find_of_descent_ok transform render new_path _ _ _ _ hd
  simp only [config_value.value_type, reduceCtorEq, if_false] at hf
  simp only [config.get_string, hf]

/-- The amended C17 on scenario 6 of the specification: over a source exposing
`FOO=bar`, `get_string("FOO")` returns "bar" and the Config is resolved. -/
theorem env_variables_as_config_object_spec_witness :
    (config.env_variables_as_config_object scenario_environment).to_config.get_string
        default_transformer.transform path.render path.new_path "FOO" = .ok "bar" ∧
    (config.env_variables_as_config_object scenario_environment).to_config.is_resolved
      = true :=
  have h := env_variables_as_config_object_spec default_transformer.transform path.render
    path.new_path default_transform_no_object_coercion default_transform_keeps_strings
    scenario_environment
  ⟨h.2.2.2 "FOO" "bar" rfl rfl, h.2.1⟩

/-! ## C18 -/

/-- C18: `resolve(options)` is `resolve_with(self, options)`; when the root the
external resolver returns is the root of the Config (the same address),
`resolve_with` returns the Config instance it was called on; otherwise it
returns the instance `make_shared` creates, whose root is the pointer the
resolver returned, cast to an Object: the resolver's result itself when that is
an Object.  The new instance is not the old one when `make_shared` places it
at another address. -/
theorem resolve_with_keeps_identity
    (resolve_context_resolve : shared_ptr config_object → shared_ptr config_object →
      config_resolve_options → shared_ptr config_value)
    (make_shared_address : Nat) (self source : shared_config)
    (options : config_resolve_options) :
    self.resolve resolve_context_resolve make_shared_address options =
      self.resolve_with resolve_context_resolve make_shared_address self options ∧
    ((resolve_context_resolve self._object source._object options).same self._object = true →
      self.resolve_with resolve_context_resolve make_shared_address source options = self) ∧
    ((resolve_context_resolve self._object source._object options).same self._object = false →
      (self.resolve_with resolve_context_resolve make_shared_address source options).address
        = make_shared_address ∧
      (self.resolve_with resolve_context_resolve make_shared_address source options)._object
        = (resolve_context_resolve self._object source._object
            options).dynamic_pointer_cast_config_object ∧
      (∀ a st es,
        resolve_context_resolve self._object source._object options
          = .points_to a (.simple_config_object st es) →
        (self.resolve_with resolve_context_resolve make_shared_address source options)._object
          = .points_to a ⟨st, es⟩) ∧
      (make_shared_address ≠ self.address →
        self.resolve_with resolve_context_resolve make_shared_address source options
          ≠ self)) := by
  refine ⟨rfl, ?_, ?_⟩
  · intro h
    simp only [shared_config.resolve_with, h, if_true]
  · intro h
    have hr : self.resolve_with resolve_context_resolve make_shared_address source options
        = ⟨make_shared_address,
            (resolve_context_resolve self._object source._object
              options).dynamic_pointer_cast_config_object⟩ := by
      simp only [shared_config.resolve_with, h, Bool.false_eq_true, if_false]
    refine ⟨by rw [hr], by rw [hr], ?_, ?_⟩
    · intro a st es hres
      rw [hr, hres]
      rfl
    · intro hne heq
      rw [hr] at heq
      exact hne (congrArg shared_config.address heq)

/-- C18 on the instance at address 1 with root at address 2: a resolver that
hands the root back leaves the instance as it is, and a resolver that builds
its result at address 99 gives a new instance with that root. -/
theorem resolve_with_keeps_identity_witness :
    instance_at_1.resolve_with identity_resolver 7 instance_at_1 ⟨false⟩ = instance_at_1 ∧
    (instance_at_1.resolve_with rebuilding_resolver 7 instance_at_1 ⟨false⟩).address = 7 ∧
    (instance_at_1.resolve_with rebuilding_resolver 7 instance_at_1 ⟨false⟩)._object
      = .points_to 99 ⟨.RESOLVED, []⟩ :=
  ⟨(resolve_with_keeps_identity identity_resolver 7 instance_at_1 instance_at_1 ⟨false⟩).2.1
      rfl,
    ((resolve_with_keeps_identity rebuilding_resolver 7 instance_at_1 instance_at_1
      ⟨false⟩).2.2 rfl).1,
    ((resolve_with_keeps_identity rebuilding_resolver 7 instance_at_1 instance_at_1
      ⟨false⟩).2.2 rfl).2.2.1 99 .RESOLVED [] rfl⟩

/-! ## C19 -/

theorem descend_cons_object (self : config_object) (key : String) (st : resolve_status)
    (es : List (String × config_value)) (rest : path)
    (hl : self.value.lookup key = some (.simple_config_object st es)) :
    self.descend (key :: rest) = (⟨st, es⟩ : config_object).descend rest := by
  simp only [config_object.descend, hl, dynamic_pointer_cast_config_object]

/-- In a resolved tree, a failure of the descent is an exception that carries
the rendering of the path consumed up to the key at which the descent stopped:
the keys before it lead through Objects, and when keys remain after it, it is
not bound to an Object. -/
theorem find_or_null_static_failure_path
    (transform : config_value → config_value.type → config_value)
    (render : path → String) (htr : no_object_coercion transform)
    (expected : config_value.type) (f : failure) :
    ∀ (desired : path) (self : config_object) (consumed : path),
      self.to_value.resolved = true →
      config.find_or_null_static transform render self desired expected
        (consumed ++ desired) = .error f →
      desired ≠ [] →
      ∃ ex pre key post o, f = .thrown ex ∧ desired = pre ++ key :: post ∧
        ex.what.path = some (render (consumed ++ pre ++ [key])) ∧
        self.descend pre = some o ∧
        (post ≠ [] → ∀ st es, o.value.lookup key ≠ some (.simple_config_object st es))
  | [], _, _, _, _, hne => absurd rfl hne
  | key :: next, self, consumed, hres, h, _ => by
    have hst := resolved_status self hres
    cases hl : self.value.lookup key with
    | none =>
      rw [find_or_null_static_absent transform render self hst key next consumed expected hl]
        at h
      simp only [Except.error.injEq] at h
      subst h
      exact ⟨_, [], key, next, self, rfl, rfl, by simp [message.path], rfl,
        fun _ st es => by rw [hl]; simp⟩
    | some v =>
      by_cases hnext : next = []
      · subst hnext
        rw [find_or_null_static_last transform render self hst key _ expected v hl] at h
        split at h
        · cases h
        · split at h
          · cases h
          · simp only [Except.error.injEq] at h
            subst h
            exact ⟨_, [], key, [], self, rfl, rfl, by simp [message.path], rfl,
              fun hp => absurd rfl hp⟩
      · by_cases hobj : v.value_type = .OBJECT
        · obtain ⟨st, es, rfl⟩ := (value_type_object_iff v).1 hobj
          obtain ⟨k2, rest2, rfl⟩ := List.exists_cons_of_ne_nil hnext
          have hd : self.descend [key] = some ⟨st, es⟩ := by
            rw [descend_cons_object self key st es [] hl]; rfl
          have h1 := find_or_null_static_descend transform render htr [key] self ⟨st, es⟩
            hres hd consumed k2 rest2 expected
          have horig : consumed ++ key :: k2 :: rest2 = consumed ++ [key] ++ k2 :: rest2 := by
            simp
          rw [horig] at h
          have h2 : config.find_or_null_static transform render ⟨st, es⟩ (k2 :: rest2)
              expected (consumed ++ [key] ++ k2 :: rest2) = .error f := by
            rw [← h1]; exact h
          have hres2 : (⟨st, es⟩ : config_object).to_value.resolved = true :=
            resolved_descend self ⟨st, es⟩ [key] hres hd
          obtain ⟨ex, pre, key', post, o, hf, hdes, hpath, hdesc, hstop⟩ :=
            find_or_null_static_failure_path transform render htr expected f (k2 :: rest2)
              ⟨st, es⟩ (consumed ++ [key]) hres2 h2 (by simp)
          refine ⟨ex, key :: pre, key', post, o, hf, by rw [hdes]; rfl, ?_, ?_, hstop⟩
          · rw [hpath]; simp
          · rw [descend_cons_object self key st es pre hl]; exact hdesc
        · rw [find_or_null_static_not_object transform render htr self hst key next consumed
            hnext expected v hl hobj] at h
          split at h
          · simp only [Except.error.injEq] at h
            subst h
            refine ⟨_, [], key, next, self, rfl, rfl, by simp [message.path], rfl, ?_⟩
            intro _ st es hv
            rw [hl] at hv
            simp only [Option.some.injEq] at hv
            subst hv
            exact hobj rfl
          · simp only [Except.error.injEq] at h
            subst h
            refine ⟨_, [], key, next, self, rfl, rfl, by simp [message.path], rfl, ?_⟩
            intro _ st es hv
            rw [hl] at hv
            simp only [Option.some.injEq] at hv
            subst hv
            exact hobj rfl

theorem take_consumed (pre : path) (key : String) (post : path) :
    (pre ++ key :: post).take (pre.length + 1) = pre ++ [key] := by
  have h : pre ++ key :: post = (pre ++ [key]) ++ post := by simp
  rw [h]
  exact List.take_left' (by simp)

theorem take_before (pre : path) (key : String) (post : path) :
    (pre ++ key :: post).take pre.length = pre :=
  List.take_left' rfl

/-- C19: in a resolved tree, for a path of n segments, every exception that
`find` raises carries the rendering of the first i segments of the path the
caller supplied, for the segment i (1-based, 1 ≤ i ≤ n) at which the descent
stopped: the segments before i lead through Objects and, when i is not the
last segment, the first i segments locate no Object.  A failure at the last
segment therefore carries the full path, a failure at an intermediate segment
exactly the first i segments, and never the remainder. -/
theorem diagnostic_path_is_consumed_prefix
    (transform : config_value → config_value.type → config_value)
    (render : path → String) (new_path : String → path)
    (htr : no_object_coercion transform) (c : config)
    (hres : c.root.to_value.resolved = true) (path_expression : String)
    (hne : new_path path_expression ≠ []) (expected : config_value.type) (f : failure)
    (h : c.find transform render new_path path_expression expected = .error f) :
    ∃ ex i, f = .thrown ex ∧ 1 ≤ i ∧ i ≤ (new_path path_expression).length ∧
      ex.what.path = some (render ((new_path path_expression).take i)) ∧
      (i = 1 ∨ ∃ st es, c.root.peek_path ((new_path path_expression).take (i - 1))
        = .ok (some (.simple_config_object st es))) ∧
      (i < (new_path path_expression).length →
        ∀ st es, c.root.peek_path ((new_path path_expression).take i)
          ≠ .ok (some (.simple_config_object st es))) ∧
      (i = (new_path path_expression).length →
        ex.what.path = some (render (new_path path_expression))) := by
  have key_fact : ∀ (ex : config_exception) (pre : path) (key : String) (post : path)
      (o : config_object), new_path path_expression = pre ++ key :: post →
      ex.what.path = some (render (pre ++ [key])) → c.root.descend pre = some o →
      (post ≠ [] → ∀ st es, o.value.lookup key ≠ some (.simple_config_object st es)) →
      ∃ i, 1 ≤ i ∧ i ≤ (new_path path_expression).length ∧
        ex.what.path = some (render ((new_path path_expression).take i)) ∧
        (i = 1 ∨ ∃ st es, c.root.peek_path ((new_path path_expression).take (i - 1))
          = .ok (some (.simple_config_object st es))) ∧
        (i < (new_path path_expression).length →
          ∀ st es, c.root.peek_path ((new_path path_expression).take i)
            ≠ .ok (some (.simple_config_object st es))) ∧
        (i = (new_path path_expression).length →
          ex.what.path = some (render (new_path path_expression))) := by
    intro ex pre key post o hp hpath hd hstop
    have htake : (new_path path_expression).take (pre.length + 1) = pre ++ [key] := by
      rw [hp]; exact take_consumed pre key post
    have hlen : (new_path path_expression).length = pre.length + 1 + post.length := by
      rw [hp]; simp; omega
    refine ⟨pre.length + 1, by omega, by omega, by rw [htake]; exact hpath, ?_, ?_, ?_⟩
    · by_cases hpre : pre = []
      · left; simp [hpre]
      · right
        have : (new_path path_expression).take (pre.length + 1 - 1) = pre := by
          rw [hp, Nat.add_sub_cancel]; exact take_before pre key post
        rw [this]
        exact ⟨o.status, o.value, (descend_eq_some_iff c.root o pre hpre).1 hd⟩
    · intro hi st es hpk
      have hpost : post ≠ [] := by
        rintro rfl
        simp at hlen
        omega
      rw [htake, peek_path_append_key, hd] at hpk
      simp only [Option.bind_some, Except.ok.injEq] at hpk
      exact hstop hpost st es hpk
    · intro hi
      have hpost : post = [] := by
        apply List.eq_nil_of_length_eq_zero
        omega
      rw [hpath, hp, hpost]
  rw [find_eq] at h
  rcases hr : config.find_or_null_static transform render c._object (new_path path_expression)
    expected (new_path path_expression) with f2 | t
  · simp only [hr, Except.error.injEq] at h
    subst h
    have hr2 : config.find_or_null_static transform render c._object
        (new_path path_expression) expected ([] ++ new_path path_expression)
        = .error f2 := by simpa using hr
    obtain ⟨ex, pre, key, post, o, hf, hp, hpath, hd, hstop⟩ :=
      find_or_null_static_failure_path transform render htr expected f2
        (new_path path_expression) c._object [] hres hr2 hne
    obtain ⟨i, hi⟩ := key_fact ex pre key post o hp (by simpa using hpath) hd hstop
    exact ⟨ex, i, hf, hi⟩
  · simp only [hr, config.throw_if_null, throw_exception] at h
    split at h
    · simp only [Except.error.injEq] at h
      obtain ⟨v, hv, _⟩ := (find_or_null_static_eq_ok_iff transform render htr
        (new_path path_expression) hne c._object expected (new_path path_expression) t).1 hr
      obtain ⟨pre, key, o, hp, hd, _⟩ := (peek_path_some_iff c._object _ v).1 hv
      obtain ⟨i, hi⟩ := key_fact ⟨.null_exception,
        .is_null (render (new_path path_expression))⟩ pre key [] o hp
        (by rw [hp]; rfl) hd (fun hp2 => absurd rfl hp2)
      exact ⟨_, i, h.symm, hi⟩
    · cases h

/-- C19 at `a.b.z.w` in the tree of scenario 1, four segments: the descent
stops at the third segment, which the Object at `a.b` lacks, and `find` raises
Missing carrying `a.b.z`, the first three segments. -/
theorem diagnostic_path_is_consumed_prefix_witness :
    scenario_tree.find default_transformer.transform path.render path.new_path "a.b.z.w"
        .NUMBER
      = .error (.thrown ⟨.config_exception, .no_configuration_setting "a.b.z"⟩) ∧
    ∃ ex i, (.thrown ⟨.config_exception, .no_configuration_setting "a.b.z"⟩ : failure)
        = .thrown ex ∧ 1 ≤ i ∧ i ≤ (path.new_path "a.b.z.w").length ∧
      ex.what.path = some (path.render ((path.new_path "a.b.z.w").take i)) ∧
      (i = 1 ∨ ∃ st es, scenario_tree.root.peek_path ((path.new_path "a.b.z.w").take (i - 1))
        = .ok (some (.simple_config_object st es))) ∧
      (i < (path.new_path "a.b.z.w").length →
        ∀ st es, scenario_tree.root.peek_path ((path.new_path "a.b.z.w").take i)
          ≠ .ok (some (.simple_config_object st es))) ∧
      (i = (path.new_path "a.b.z.w").length →
        ex.what.path = some (path.render (path.new_path "a.b.z.w"))) :=
  ⟨rfl, diagnostic_path_is_consumed_prefix default_transformer.transform path.render
    path.new_path default_transform_no_object_coercion scenario_tree rfl "a.b.z.w"
    (by decide) .NUMBER _ rfl⟩

/-! ## C20 -/

theorem has_path_eq_true_iff (render : path → String) (new_path : String → path)
    (c : config) (path_expression : String) :
    c.has_path render new_path path_expression = .ok true ↔
      ∃ v, c.root.peek_path (new_path path_expression) = .ok (some v) ∧
        v.value_type ≠ .CONFIG_NULL := by
  simp only [config.has_path, config.has_path_peek, config.root]
  rcases hr : c._object.peek_path (new_path path_expression) with (ex | _) | r
  · by_cases hs : c._object.status = .RESOLVED
    · simp [catch_thrown_resolved render _ _ ex hs]
    · simp [catch_thrown_unresolved render _ _ ex hs]
  · simp [catch_null_dereference]
  · cases r with
    | none => simp [catch_ok]
    | some w => simp [catch_ok]

/-- C20: `has_path(p)` is true exactly when `get_value(p)` returns: if
`has_path(p)` is true, `get_value(p)` returns the value the peek locates at
`p`, which is not Null-tagged; if `get_value(p)` returns a value, that value is
the one the peek locates, it is not Null-tagged, and `has_path(p)` is true. -/
theorem has_path_agrees_with_get_value
    (transform : config_value → config_value.type → config_value)
    (render : path → String) (new_path : String → path)
    (htr : no_object_coercion transform) (c : config) (path_expression : String) :
    (c.has_path render new_path path_expression = .ok true →
      ∃ v, c.root.peek_path (new_path path_expression) = .ok (some v) ∧
        v.value_type ≠ .CONFIG_NULL ∧
        c.get_value transform render new_path path_expression = .ok v) ∧
    (∀ v, c.get_value transform render new_path path_expression = .ok v →
      c.root.peek_path (new_path path_expression) = .ok (some v) ∧
      v.value_type ≠ .CONFIG_NULL ∧
      c.has_path render new_path path_expression = .ok true) := by
  constructor
  · intro h
    obtain ⟨v, hv, hn⟩ := (has_path_eq_true_iff render new_path c path_expression).1 h
    refine ⟨v, hv, hn, ?_⟩
    have hd := descent_of_located transform render new_path htr c path_expression v v hv
      .UNSPECIFIED (Or.inl ⟨rfl, rfl⟩)
    rw [config.get_value, find_of_descent_ok transform render new_path c _ _ v hd]
    simp [hn]
  · intro v h
    have hn := get_value_ne_null transform render new_path c path_expression v h
    have hne : new_path path_expression ≠ [] := by
      intro hnil
      rw [config.get_value, find_eq, hnil] at h
      simp [config.find_or_null_static] at h
    rw [config.get_value, find_eq] at h
    rcases hr : config.find_or_null_static transform render c._object
      (new_path path_expression) .UNSPECIFIED (new_path path_expression) with f | t
    · simp [hr] at h
    · simp only [hr, config.throw_if_null, throw_exception] at h
      split at h
      · cases h
      · simp only [Except.ok.injEq] at h
        subst h
        obtain ⟨w, hw, hacc⟩ := (find_or_null_static_eq_ok_iff transform render htr
          (new_path path_expression) hne c._object .UNSPECIFIED _ t).1 hr
        rcases hacc with ⟨_, rfl⟩ | ⟨hK, _⟩
        · exact ⟨hw, hn, (has_path_eq_true_iff render new_path c path_expression).2
            ⟨t, hw, hn⟩⟩
        · exact absurd rfl hK

/-- C20 at `a.b.c` in the tree of scenario 1: `has_path` is true and `get_value`
returns the Number the peek locates. -/
theorem has_path_agrees_with_get_value_witness :
    ∃ v, scenario_tree.root.peek_path (path.new_path "a.b.c") = .ok (some v) ∧
      v.value_type ≠ .CONFIG_NULL ∧
      scenario_tree.get_value default_transformer.transform path.render path.new_path
        "a.b.c" = .ok v :=
  (has_path_agrees_with_get_value default_transformer.transform path.render path.new_path
    default_transform_no_object_coercion scenario_tree "a.b.c").1 rfl

end hocon
